import Mathlib

/-!
A verification development for the core of the `dhall` crate: the
bidirectional typechecker (`semantics/tck/typecheck.rs`) and the
resolution environments (`semantics/resolve/env.rs`).

The Rust source is embedded shallowly:

* pure functions become Lean functions;
* Rust `Result` becomes `Except`; Rust panics (`unreachable!`, index out
  of bounds) become explicit error constructors or `Option`;
* the external normalizer, `Value` internals, `TyEnv` and the on-disk
  cache of imports are not part of the sources; definitions for them are
  modelled from the specification and carry a doc comment starting with
  `Modelled from the spec:`;
* recursion in the typechecker and normalizer is fuel-indexed so that
  every definition is executable and reduces in the kernel.  Fuel
  exhaustion is a dedicated error (`Err.outOfFuel`) distinct from every
  behaviour of the source.
-/

namespace Dhall

/-- Universe constants, totally ordered `type < kind < sort`
(`syntax::Const` with `derive(Ord)`). -/
inductive Const where
  | type
  | kind
  | sort
deriving DecidableEq, Repr

/-- Numeric view of a `Const`, used to define the derived `Ord`. -/
def Const.toNat : Const → Nat
  | .type => 0
  | .kind => 1
  | .sort => 2

/-- The `max` on `Const`, as produced by the derived `Ord` in the source. -/
def cmax (a b : Const) : Const :=
  if a.toNat ≤ b.toNat then b else a

/-- Rust `function_check` from `typecheck.rs`: the universe of a function type
with domain universe `a` and codomain universe `b`. -/
def functionCheck (a b : Const) : Const :=
  if b = Const.type then Const.type else cmax a b

/-- The builtins of the embedded fragment (`syntax::Builtin`). -/
inductive Builtin where
  | bool
  | natural
  | optional
deriving DecidableEq, Repr

/-- A source-level variable `V(name, idx)`: a name plus a shadowing
index (`syntax::V`). -/
structure V where
  name : String
  idx : Nat
deriving DecidableEq, Repr

/-! ## Name environment (`NameEnv`, `semantics/resolve/env.rs`)

`names` mirrors the `Vec<Label>` of the source: entries are pushed at
the end, so the innermost binder is the last element. -/

structure NameEnv where
  names : List String
deriving DecidableEq, Repr

def NameEnv.size (env : NameEnv) : Nat :=
  env.names.length

def NameEnv.insert (env : NameEnv) (x : String) : NameEnv :=
  ⟨env.names ++ [x]⟩

/-- Rust `NameEnv::unlabel_var`: find the `(idx+1)`-th innermost frame whose
label equals `name` (iterating the reversed vector, enumerating, filtering
on the name and taking the `idx`-th hit) and return its de Bruijn index. -/
def NameEnv.unlabelVar (env : NameEnv) (v : V) : Option Nat :=
  (((env.names.reverse.enum).filter (fun p => p.2 = v.name)).get? v.idx).map
    (fun p => p.1)

/-- Rust `NameEnv::label_var`, total version under the bound `d < size`:
the name is `names[len - 1 - d]` and the shadowing index counts the
occurrences of that name among the `d` innermost frames
(`iter().rev().take(idx).filter(..).count()`). -/
def NameEnv.labelVar (env : NameEnv) (d : Nat) : V :=
  let name := env.names.getD (env.names.length - 1 - d) ""
  ⟨name, ((env.names.reverse.take d).filter (fun n => n = name)).length⟩

/-- Rust `NameEnv::label_var` with the indexing made explicit: the source
indexes `self.names[self.names.len() - 1 - var.idx()]` directly, which
panics when `d ≥ len` (underflow of the unsigned subtraction, or an
out-of-bounds access).  The panic is modelled by `none`. -/
def NameEnv.labelVarChecked (env : NameEnv) (d : Nat) : Option V :=
  if d < env.names.length then some (env.labelVar d) else none

/-! ## Import environment (`ImportEnv`, `semantics/resolve/env.rs`)

The import machinery is parameterized by the types of import locations,
resolved results (`Typed`), hashes and persistent-cache errors: the
typechecker never inspects them. -/

/-- First match in an association list; the observable behaviour of the
`HashMap` lookups of the source (a `HashMap` holds one binding per key,
and `assocLookup` after a head insertion sees the newest binding). -/
def assocLookup {α β : Type} [DecidableEq α] (l : List (α × β)) (x : α) :
    Option β :=
  match l with
  | [] => none
  | (y, v) :: rest => if y = x then some v else assocLookup rest x

/-- Modelled from the spec: the persistent import cache (`Cache`, not part
of the sources) is a black-box content-addressed map whose reads may fail;
only its read view matters to `get_from_cache`/`set_cache`, because every
write failure is swallowed. -/
structure FileCache (Hash Typed CErr : Type) where
  get : Hash → Except CErr Typed

/-- The import-resolution error surface relevant to `ImportEnv`:
`ImportError::ImportCycle(stack snapshot, offending location)`, plus an
opaque constructor standing for every other resolution failure. -/
inductive ImportError (Loc : Type) where
  | importCycle (stack : List Loc) (loc : Loc)
  | other (code : Nat)

/-- Rust `ImportEnv`: in-memory cache keyed by location, optional persistent
cache keyed by hash, and the cycle-guard stack (top of the `Vec` is the
head of the list here). -/
structure ImportEnv (Loc Typed Hash CErr : Type) where
  fileCache : Option (FileCache Hash Typed CErr)
  memCache : List (Loc × Typed)
  stack : List Loc

/-- Rust `ImportEnv::get_from_cache`: memory cache first; on a miss, only with
a supplied hash and a live persistent cache, probe the persistent cache,
turning any error into a miss (`.ok()?` in the source). -/
def ImportEnv.getFromCache {Loc Typed Hash CErr : Type} [DecidableEq Loc]
    (env : ImportEnv Loc Typed Hash CErr) (location : Loc)
    (hash : Option Hash) : Option Typed :=
  match assocLookup env.memCache location with
  | some expr => some expr
  | none => do
    let hash ← hash
    let fc ← env.fileCache
    (fc.get hash).toOption

/-- Rust `ImportEnv::set_cache`: always install into the memory cache.  The
source also attempts `file_cache.insert(hash, &expr)` when both the
persistent cache and a hash are present and discards the result
(`let _ = ...`); that write touches only the external store, so the
environment state is the memory insertion alone. -/
def ImportEnv.setCache {Loc Typed Hash CErr : Type}
    (env : ImportEnv Loc Typed Hash CErr) (location : Loc) (expr : Typed) :
    ImportEnv Loc Typed Hash CErr :=
  { env with memCache := (location, expr) :: env.memCache }

/-- Rust `ImportEnv::with_cycle_detection`: fail with `ImportCycle` when
`location` is already on the stack (the snapshot is cloned before the
push), otherwise push, run the resolver, pop unconditionally and return
the resolver's result.  The resolver is a state transformer on the whole
environment, as the `FnOnce(&mut Self)` of the source is. -/
def ImportEnv.withCycleDetection {Loc Typed Hash CErr : Type}
    [DecidableEq Loc] (env : ImportEnv Loc Typed Hash CErr) (location : Loc)
    (doResolve : ImportEnv Loc Typed Hash CErr →
      Except (ImportError Loc) Typed × ImportEnv Loc Typed Hash CErr) :
    Except (ImportError Loc) Typed × ImportEnv Loc Typed Hash CErr :=
  if location ∈ env.stack then
    (Except.error (ImportError.importCycle env.stack location), env)
  else
    let pushed := { env with stack := location :: env.stack }
    let res := doResolve pushed
    (res.1, { res.2 with stack := res.2.stack.tail })

/-! ## Expressions

The embedded fragment of `ExprKind` (`syntax::ExprKind`), covering the
forms the verified claims exercise.  `letE` carries the optional type
annotation of the source; `combine` is `BinOp(RightBiasedRecordMerge)`. -/

inductive Expr where
  | var (v : V)
  | lam (x : String) (annot body : Expr)
  | pi (x : String) (annot body : Expr)
  | letE (x : String) (annot : Option Expr) (val body : Expr)
  | app (f arg : Expr)
  | annot (x t : Expr)
  | const (c : Const)
  | builtin (b : Builtin)
  | boolLit (b : Bool)
  | natLit (n : Nat)
  | someLit (x : Expr)
  | recordLit (kvs : List (String × Expr))
  | recordType (kts : List (String × Expr))
  | unionType (kts : List (String × Option Expr))
  | projection (r : Expr) (labels : List String)
  | merge (rec scrut : Expr) (tannot : Option Expr)
  | boolIf (c t e : Expr)
  | combine (x y : Expr)

/-! ## Values and typed expressions

`Value` mirrors the semantic values of the normalizer: a `ValueKind`
plus the value's own type (`from_kind_and_type`); `Const Sort` is the
only value with no type.  `TyExpr` is an expression node annotated with
its synthesized type (`TyExpr::new(kind, ty, span)`, spans dropped);
variables are de Bruijn indices (`AlphaVar`) after typechecking.
`Closure` is a suspended body with its captured environment.

Modelled from the spec: `ValueKind`, `Closure` and the `stuck*`
constructors stand for the external normalizer's value representation
(the spec lists `Const`, `AppliedBuiltin`, `RecordType`, `UnionType`,
`PiClosure` and "other normalization artifacts opaque to the
typechecker"); the stuck forms are those artifacts for the fragment. -/

mutual
inductive Value where
  | mk (kind : ValueKind) (ty : Option Value)
inductive ValueKind where
  | const (c : Const)
  | var (lvl : Nat)
  | appliedBuiltin (b : Builtin) (args : List Value)
  | boolLit (b : Bool)
  | natLit (n : Nat)
  | someLit (v : Value)
  | recordLit (kvs : List (String × Value))
  | recordType (kts : List (String × Value))
  | unionType (kts : List (String × Option Value))
  | lamClosure (x : String) (annot : Value) (cl : Closure)
  | piClosure (x : String) (annot : Value) (cl : Closure)
  | stuckApp (f arg : Value)
  | stuckIf (c t e : Value)
  | stuckMerge (rec scrut : Value) (tannot : Option Value)
  | stuckProjection (r : Value) (labels : List String)
  | stuckCombine (x y : Value)
inductive Closure where
  | mk (env : List Value) (body : TyExpr)
inductive TyExpr where
  | mk (kind : TyExprKind) (ty : Option Value)
inductive TyExprKind where
  | var (a : Nat)
  | lam (x : String) (annot body : TyExpr)
  | pi (x : String) (annot body : TyExpr)
  | letE (x : String) (annot : Option TyExpr) (val body : TyExpr)
  | app (f arg : TyExpr)
  | annot (x t : TyExpr)
  | const (c : Const)
  | builtin (b : Builtin)
  | boolLit (b : Bool)
  | natLit (n : Nat)
  | someLit (x : TyExpr)
  | recordLit (kvs : List (String × TyExpr))
  | recordType (kts : List (String × TyExpr))
  | unionType (kts : List (String × Option TyExpr))
  | projection (r : TyExpr) (labels : List String)
  | merge (rec scrut : TyExpr) (tannot : Option TyExpr)
  | boolIf (c t e : TyExpr)
  | combine (x y : TyExpr)
end

def Value.kind : Value → ValueKind
  | .mk k _ => k

def Value.ty : Value → Option Value
  | .mk _ t => t

def TyExpr.kind : TyExpr → TyExprKind
  | .mk k _ => k

def TyExpr.ty : TyExpr → Option Value
  | .mk _ t => t

def Closure.env : Closure → List Value
  | .mk e _ => e

def Closure.body : Closure → TyExpr
  | .mk _ b => b

/-! ## Errors

`TypeError` with its `TypeMessage`; almost every failure of the source
goes through `mkerr`, i.e. `TypeMessage::Custom(tag)`. `panic` models
the `unreachable!` / `unimplemented!` paths, and `outOfFuel` is the
artifact of the fuel-indexed embedding (it corresponds to no behaviour
of the source). -/

inductive TypeMessage where
  | custom (s : String)
  | invalidInputType (t : Value)
  | invalidOutputType (t : Value)

inductive Err where
  | typeError (m : TypeMessage)
  | panic (s : String)
  | outOfFuel

/-- Rust `mkerr` from the source: a `TypeMessage::Custom` failure. -/
def mkerr {α : Type} (s : String) : Except Err α :=
  Except.error (Err.typeError (TypeMessage.custom s))

/-! ## Structural equality of values

Modelled from the spec: the `PartialEq` used by the typechecker's
comparisons (`x_ty != t`, `y.get_type()? != z.get_type()?`, ...) is not
part of the sources; it is modelled as structural equality of the
normalized value structure — two values are equal when their kinds agree
recursively; the attached type of a value is derived data and not part
of the comparison.  It is fuel-indexed so that it evaluates in the
kernel (the fuel is an upper bound on the tree depth; the typechecker
threads its own fuel in). -/

mutual
def beqV : Nat → Value → Value → Bool
  | 0, _, _ => false
  | n + 1, .mk k1 _, .mk k2 _ => beqVK n k1 k2
def beqOV : Nat → Option Value → Option Value → Bool
  | 0, _, _ => false
  | _ + 1, none, none => true
  | n + 1, some a, some b => beqV n a b
  | _ + 1, _, _ => false
def beqVK : Nat → ValueKind → ValueKind → Bool
  | 0, _, _ => false
  | n + 1, k1, k2 =>
    match k1, k2 with
    | .const c1, .const c2 => c1 = c2
    | .var l1, .var l2 => l1 = l2
    | .appliedBuiltin b1 a1, .appliedBuiltin b2 a2 =>
      b1 = b2 && a1.length = a2.length &&
        (a1.zip a2).all (fun p => beqV n p.1 p.2)
    | .boolLit b1, .boolLit b2 => b1 = b2
    | .natLit m1, .natLit m2 => m1 = m2
    | .someLit v1, .someLit v2 => beqV n v1 v2
    | .recordLit f1, .recordLit f2 =>
      f1.length = f2.length &&
        (f1.zip f2).all (fun p => p.1.1 = p.2.1 && beqV n p.1.2 p.2.2)
    | .recordType f1, .recordType f2 =>
      f1.length = f2.length &&
        (f1.zip f2).all (fun p => p.1.1 = p.2.1 && beqV n p.1.2 p.2.2)
    | .unionType f1, .unionType f2 =>
      f1.length = f2.length &&
        (f1.zip f2).all (fun p => p.1.1 = p.2.1 && beqOV n p.1.2 p.2.2)
    | .lamClosure x1 a1 c1, .lamClosure x2 a2 c2 =>
      x1 = x2 && beqV n a1 a2 && beqCl n c1 c2
    | .piClosure x1 a1 c1, .piClosure x2 a2 c2 =>
      x1 = x2 && beqV n a1 a2 && beqCl n c1 c2
    | .stuckApp f1 a1, .stuckApp f2 a2 => beqV n f1 f2 && beqV n a1 a2
    | .stuckIf c1 t1 e1, .stuckIf c2 t2 e2 =>
      beqV n c1 c2 && beqV n t1 t2 && beqV n e1 e2
    | .stuckMerge r1 s1 t1, .stuckMerge r2 s2 t2 =>
      beqV n r1 r2 && beqV n s1 s2 && beqOV n t1 t2
    | .stuckProjection r1 l1, .stuckProjection r2 l2 =>
      beqV n r1 r2 && l1 = l2
    | .stuckCombine x1 y1, .stuckCombine x2 y2 =>
      beqV n x1 x2 && beqV n y1 y2
    | _, _ => false
def beqCl : Nat → Closure → Closure → Bool
  | 0, _, _ => false
  | n + 1, .mk e1 b1, .mk e2 b2 =>
    e1.length = e2.length && (e1.zip e2).all (fun p => beqV n p.1 p.2) &&
      beqTE n b1 b2
def beqTE : Nat → TyExpr → TyExpr → Bool
  | 0, _, _ => false
  | n + 1, .mk k1 t1, .mk k2 t2 => beqTK n k1 k2 && beqOV n t1 t2
def beqOTE : Nat → Option TyExpr → Option TyExpr → Bool
  | 0, _, _ => false
  | _ + 1, none, none => true
  | n + 1, some a, some b => beqTE n a b
  | _ + 1, _, _ => false
def beqTK : Nat → TyExprKind → TyExprKind → Bool
  | 0, _, _ => false
  | n + 1, k1, k2 =>
    match k1, k2 with
    | .var a1, .var a2 => a1 = a2
    | .lam x1 a1 b1, .lam x2 a2 b2 =>
      x1 = x2 && beqTE n a1 a2 && beqTE n b1 b2
    | .pi x1 a1 b1, .pi x2 a2 b2 =>
      x1 = x2 && beqTE n a1 a2 && beqTE n b1 b2
    | .letE x1 t1 v1 b1, .letE x2 t2 v2 b2 =>
      x1 = x2 && beqOTE n t1 t2 && beqTE n v1 v2 && beqTE n b1 b2
    | .app f1 a1, .app f2 a2 => beqTE n f1 f2 && beqTE n a1 a2
    | .annot x1 t1, .annot x2 t2 => beqTE n x1 x2 && beqTE n t1 t2
    | .const c1, .const c2 => c1 = c2
    | .builtin b1, .builtin b2 => b1 = b2
    | .boolLit b1, .boolLit b2 => b1 = b2
    | .natLit m1, .natLit m2 => m1 = m2
    | .someLit x1, .someLit x2 => beqTE n x1 x2
    | .recordLit f1, .recordLit f2 =>
      f1.length = f2.length &&
        (f1.zip f2).all (fun p => p.1.1 = p.2.1 && beqTE n p.1.2 p.2.2)
    | .recordType f1, .recordType f2 =>
      f1.length = f2.length &&
        (f1.zip f2).all (fun p => p.1.1 = p.2.1 && beqTE n p.1.2 p.2.2)
    | .unionType f1, .unionType f2 =>
      f1.length = f2.length &&
        (f1.zip f2).all (fun p => p.1.1 = p.2.1 && beqOTE n p.1.2 p.2.2)
    | .projection r1 l1, .projection r2 l2 => beqTE n r1 r2 && l1 = l2
    | .merge r1 s1 t1, .merge r2 s2 t2 =>
      beqTE n r1 r2 && beqTE n s1 s2 && beqOTE n t1 t2
    | .boolIf c1 t1 e1, .boolIf c2 t2 e2 =>
      beqTE n c1 c2 && beqTE n t1 t2 && beqTE n e1 e2
    | .combine x1 y1, .combine x2 y2 => beqTE n x1 x2 && beqTE n y1 y2
    | _, _ => false
end

/-! ## Basic value constructors -/

/-- The value `Sort`, the only value without a type. -/
def vSort : Value := Value.mk (ValueKind.const Const.sort) none

/-- The value `Kind`, of type `Sort`. -/
def vKind : Value := Value.mk (ValueKind.const Const.kind) (some vSort)

/-- The value `Type`, of type `Kind`. -/
def vType : Value := Value.mk (ValueKind.const Const.type) (some vKind)

/-- Rust `Value::from_const`. -/
def vConst : Const → Value
  | .type => vType
  | .kind => vKind
  | .sort => vSort

/-- The typed expression `Type` (used as a closure body below). -/
def teConstType : TyExpr := TyExpr.mk (TyExprKind.const Const.type) (some vKind)

/-- The value `Bool`, of type `Type`. -/
def vBool : Value := Value.mk (ValueKind.appliedBuiltin Builtin.bool []) (some vType)

/-- The value `Natural`, of type `Type`. -/
def vNatural : Value :=
  Value.mk (ValueKind.appliedBuiltin Builtin.natural []) (some vType)

/-- Rust `Value::from_builtin`.  `Optional` is the unapplied type constructor,
of type `∀(_ : Type) → Type`. -/
def Value.fromBuiltin : Builtin → Value
  | .bool => vBool
  | .natural => vNatural
  | .optional =>
    Value.mk (ValueKind.appliedBuiltin Builtin.optional [])
      (some (Value.mk
        (ValueKind.piClosure "_" vType (Closure.mk [] teConstType))
        (some vKind)))

/-- Rust `Value::get_type`: the recorded type, or the `Sort`-has-no-type
error. -/
def Value.getType (v : Value) : Except Err Value :=
  match v.ty with
  | some t => Except.ok t
  | none => mkerr "Sort does not have a type"

/-- Rust `Value::as_const`. -/
def Value.asConst (v : Value) : Option Const :=
  match v.kind with
  | .const c => some c
  | _ => none

/-- Rust `TyExpr::get_type`: the recorded type of a typed node, or the
`Sort`-has-no-type error. -/
def TyExpr.getType (e : TyExpr) : Except Err Value :=
  match e.ty with
  | some t => Except.ok t
  | none => mkerr "Sort does not have a type"

/-! ## The normalizer

Modelled from the spec: `normalize_whnf` / `normalize_nf` and `Value`
quotation (`Value::to_tyexpr`) live in the external normalizer.  `eval`
evaluates a typed expression in an environment of values (de Bruijn
index 0 = head); neutral variables are `ValueKind.var` with de Bruijn
levels, so values need no shifting under binders.  Evaluation results
carry the node's recorded type.  `quote` reads a value back into a typed
expression at binder depth `n`. -/

def eval : Nat → List Value → TyExpr → Except Err Value
  | 0, _, _ => Except.error Err.outOfFuel
  | n + 1, env, .mk k ty =>
    match k with
    | .var a =>
      match env.get? a with
      | some v => Except.ok v
      | none => Except.error (Err.panic "unbound de Bruijn variable")
    | .lam x annot body => do
      let a ← eval n env annot
      Except.ok (Value.mk (ValueKind.lamClosure x a (Closure.mk env body)) ty)
    | .pi x annot body => do
      let a ← eval n env annot
      Except.ok (Value.mk (ValueKind.piClosure x a (Closure.mk env body)) ty)
    | .letE _ _ val body => do
      let v ← eval n env val
      eval n (v :: env) body
    | .app f arg => do
      let fv ← eval n env f
      let av ← eval n env arg
      match fv.kind with
      | .lamClosure _ _ cl => eval n (av :: cl.env) cl.body
      | .appliedBuiltin b args =>
        Except.ok (Value.mk (ValueKind.appliedBuiltin b (args ++ [av])) ty)
      | _ => Except.ok (Value.mk (ValueKind.stuckApp fv av) ty)
    | .annot x _ => eval n env x
    | .const c => Except.ok (Value.mk (ValueKind.const c) ty)
    | .builtin b => Except.ok (Value.mk (ValueKind.appliedBuiltin b []) ty)
    | .boolLit b => Except.ok (Value.mk (ValueKind.boolLit b) ty)
    | .natLit m => Except.ok (Value.mk (ValueKind.natLit m) ty)
    | .someLit x => do
      let v ← eval n env x
      Except.ok (Value.mk (ValueKind.someLit v) ty)
    | .recordLit kvs => do
      let kvs ← kvs.mapM (fun p => do
        let v ← eval n env p.2
        pure (p.1, v))
      Except.ok (Value.mk (ValueKind.recordLit kvs) ty)
    | .recordType kts => do
      let kts ← kts.mapM (fun p => do
        let v ← eval n env p.2
        pure (p.1, v))
      Except.ok (Value.mk (ValueKind.recordType kts) ty)
    | .unionType kts => do
      let kts ← kts.mapM (fun p =>
        match p.2 with
        | none => pure (p.1, (none : Option Value))
        | some t => do
          let v ← eval n env t
          pure (p.1, some v))
      Except.ok (Value.mk (ValueKind.unionType kts) ty)
    | .projection r labels => do
      let rv ← eval n env r
      match rv.kind with
      | .recordLit kvs =>
        Except.ok (Value.mk (ValueKind.recordLit (labels.filterMap (fun l =>
          (assocLookup kvs l).map (fun v => (l, v))))) ty)
      | _ => Except.ok (Value.mk (ValueKind.stuckProjection rv labels) ty)
    | .merge rec scrut tannot => do
      let rv ← eval n env rec
      let sv ← eval n env scrut
      let tv ← match tannot with
        | none => pure (none : Option Value)
        | some t => do
          let v ← eval n env t
          pure (some v)
      match rv.kind, sv.kind with
      | .recordLit kvs, .someLit x =>
        (match assocLookup kvs "Some" with
        | some h =>
          match h.kind with
          | .lamClosure _ _ cl => eval n (x :: cl.env) cl.body
          | _ => Except.ok (Value.mk (ValueKind.stuckMerge rv sv tv) ty)
        | none => Except.ok (Value.mk (ValueKind.stuckMerge rv sv tv) ty))
      | _, _ => Except.ok (Value.mk (ValueKind.stuckMerge rv sv tv) ty)
    | .boolIf c t e => do
      let cv ← eval n env c
      match cv.kind with
      | .boolLit true => eval n env t
      | .boolLit false => eval n env e
      | _ => do
        let tv ← eval n env t
        let ev ← eval n env e
        Except.ok (Value.mk (ValueKind.stuckIf cv tv ev) ty)
    | .combine x y => do
      let xv ← eval n env x
      let yv ← eval n env y
      match xv.kind, yv.kind with
      | .recordLit kx, .recordLit ky =>
        Except.ok (Value.mk (ValueKind.recordLit
          (kx.filter (fun p => (assocLookup ky p.1).isNone) ++ ky)) ty)
      | _, _ => Except.ok (Value.mk (ValueKind.stuckCombine xv yv) ty)

/-- Rust `Closure::apply`: evaluate the suspended body with the argument
pushed onto the captured environment. -/
def applyClosure (fuel : Nat) (cl : Closure) (v : Value) : Except Err Value :=
  eval fuel (v :: cl.env) cl.body

/-- Quotation (`Value::to_tyexpr(varenv)`), at binder depth `n`: levels
become indices, closures are quoted through a fresh neutral variable. -/
def quote : Nat → Nat → Value → Except Err TyExpr
  | 0, _, _ => Except.error Err.outOfFuel
  | m + 1, n, .mk k ty =>
    match k with
    | .const c => Except.ok (TyExpr.mk (TyExprKind.const c) ty)
    | .var lvl => Except.ok (TyExpr.mk (TyExprKind.var (n - 1 - lvl)) ty)
    | .appliedBuiltin b args => do
      let args ← args.mapM (quote m n)
      Except.ok (TyExpr.mk
        (args.foldl (fun f a => TyExprKind.app (TyExpr.mk f none) a)
          (TyExprKind.builtin b)) ty)
    | .boolLit b => Except.ok (TyExpr.mk (TyExprKind.boolLit b) ty)
    | .natLit k => Except.ok (TyExpr.mk (TyExprKind.natLit k) ty)
    | .someLit v => do
      let x ← quote m n v
      Except.ok (TyExpr.mk (TyExprKind.someLit x) ty)
    | .recordLit kvs => do
      let kvs ← kvs.mapM (fun p => do
        let x ← quote m n p.2
        pure (p.1, x))
      Except.ok (TyExpr.mk (TyExprKind.recordLit kvs) ty)
    | .recordType kts => do
      let kts ← kts.mapM (fun p => do
        let x ← quote m n p.2
        pure (p.1, x))
      Except.ok (TyExpr.mk (TyExprKind.recordType kts) ty)
    | .unionType kts => do
      let kts ← kts.mapM (fun p =>
        match p.2 with
        | none => pure (p.1, (none : Option TyExpr))
        | some v => do
          let x ← quote m n v
          pure (p.1, some x))
      Except.ok (TyExpr.mk (TyExprKind.unionType kts) ty)
    | .lamClosure x a cl => do
      let a' ← quote m n a
      let bv ← eval m (Value.mk (ValueKind.var n) (some a) :: cl.env) cl.body
      let b' ← quote m (n + 1) bv
      Except.ok (TyExpr.mk (TyExprKind.lam x a' b') ty)
    | .piClosure x a cl => do
      let a' ← quote m n a
      let bv ← eval m (Value.mk (ValueKind.var n) (some a) :: cl.env) cl.body
      let b' ← quote m (n + 1) bv
      Except.ok (TyExpr.mk (TyExprKind.pi x a' b') ty)
    | .stuckApp f a => do
      let f' ← quote m n f
      let a' ← quote m n a
      Except.ok (TyExpr.mk (TyExprKind.app f' a') ty)
    | .stuckIf c t e => do
      let c' ← quote m n c
      let t' ← quote m n t
      let e' ← quote m n e
      Except.ok (TyExpr.mk (TyExprKind.boolIf c' t' e') ty)
    | .stuckMerge r s tan => do
      let r' ← quote m n r
      let s' ← quote m n s
      let tan' ← match tan with
        | none => pure (none : Option TyExpr)
        | some t => do
          let t' ← quote m n t
          pure (some t')
      Except.ok (TyExpr.mk (TyExprKind.merge r' s' tan') ty)
    | .stuckProjection r labels => do
      let r' ← quote m n r
      Except.ok (TyExpr.mk (TyExprKind.projection r' labels) ty)
    | .stuckCombine x y => do
      let x' ← quote m n x
      let y' ← quote m n y
      Except.ok (TyExpr.mk (TyExprKind.combine x' y') ty)

/-- Modelled from the spec: whether a suspended body mentions the binder
at de Bruijn index `d` in its expression structure (the condition under
which `Closure::remove_binder` fails: "succeeds iff the body does not
depend on the binder"). -/
def dependsOn : Nat → Nat → TyExpr → Except Err Bool
  | 0, _, _ => Except.error Err.outOfFuel
  | m + 1, d, .mk k _ =>
    match k with
    | .var a => Except.ok (a = d)
    | .lam _ annot body => do
      let b1 ← dependsOn m d annot
      let b2 ← dependsOn m (d + 1) body
      Except.ok (b1 || b2)
    | .pi _ annot body => do
      let b1 ← dependsOn m d annot
      let b2 ← dependsOn m (d + 1) body
      Except.ok (b1 || b2)
    | .letE _ tan val body => do
      let b0 ← match tan with
        | none => pure false
        | some t => dependsOn m d t
      let b1 ← dependsOn m d val
      let b2 ← dependsOn m (d + 1) body
      Except.ok (b0 || b1 || b2)
    | .app f arg => do
      let b1 ← dependsOn m d f
      let b2 ← dependsOn m d arg
      Except.ok (b1 || b2)
    | .annot x t => do
      let b1 ← dependsOn m d x
      let b2 ← dependsOn m d t
      Except.ok (b1 || b2)
    | .const _ => Except.ok false
    | .builtin _ => Except.ok false
    | .boolLit _ => Except.ok false
    | .natLit _ => Except.ok false
    | .someLit x => dependsOn m d x
    | .recordLit kvs => do
      let bs ← kvs.mapM (fun p => dependsOn m d p.2)
      Except.ok (bs.any id)
    | .recordType kts => do
      let bs ← kts.mapM (fun p => dependsOn m d p.2)
      Except.ok (bs.any id)
    | .unionType kts => do
      let bs ← kts.mapM (fun p =>
        match p.2 with
        | none => pure false
        | some t => dependsOn m d t)
      Except.ok (bs.any id)
    | .projection r _ => dependsOn m d r
    | .merge r s tan => do
      let b1 ← dependsOn m d r
      let b2 ← dependsOn m d s
      let b3 ← match tan with
        | none => pure false
        | some t => dependsOn m d t
      Except.ok (b1 || b2 || b3)
    | .boolIf c t e => do
      let b1 ← dependsOn m d c
      let b2 ← dependsOn m d t
      let b3 ← dependsOn m d e
      Except.ok (b1 || b2 || b3)
    | .combine x y => do
      let b1 ← dependsOn m d x
      let b2 ← dependsOn m d y
      Except.ok (b1 || b2)

/-- Modelled from the spec: `Closure::remove_binder` — `some` result iff
the body does not depend on the binder, in which case the body is
evaluated with a placeholder for the (unused) binder. -/
def removeBinder : Nat → Closure → Except Err (Option Value)
  | 0, _ => Except.error Err.outOfFuel
  | m + 1, cl => do
    let dep ← dependsOn m 0 cl.body
    if dep then Except.ok none
    else do
      let v ← eval m (Value.mk (ValueKind.var cl.env.length) none :: cl.env)
        cl.body
      Except.ok (some v)

/-- Modelled from the spec: `Value::app` — extend a builtin application
with one argument and compute the result type by applying the function
type's Pi closure. -/
def Value.app (fuel : Nat) (f x : Value) : Value :=
  let k := match f.kind with
    | .appliedBuiltin b args => ValueKind.appliedBuiltin b (args ++ [x])
    | _ => ValueKind.stuckApp f x
  let ty := match f.ty with
    | some t =>
      match t.kind with
      | .piClosure _ _ cl => (applyClosure fuel cl x).toOption
      | _ => none
    | none => none
  Value.mk k ty

/-! ## Typing environment

Modelled from the spec: `TyEnv` (`semantics/tck/env.rs`, not part of the
sources) is a stack of frames, each carrying the binder's name, its type
and, for `let`-bound binders, the bound value.  Lookup resolves a `V`
with the `unlabel_var` discipline (skip the `idx` innermost frames
sharing the name); `as_nzenv` projects each frame to its bound value, or
to a neutral variable of that frame's level. -/

structure TyFrame where
  name : String
  val : Option Value
  ty : Option Value

structure TyEnv where
  frames : List TyFrame

def TyEnv.empty : TyEnv := ⟨[]⟩

def TyEnv.size (env : TyEnv) : Nat := env.frames.length

def TyEnv.insertType (env : TyEnv) (x : String) (t : Value) : TyEnv :=
  ⟨⟨x, none, some t⟩ :: env.frames⟩

def TyEnv.insertValue (env : TyEnv) (x : String) (v : Value) : TyEnv :=
  ⟨⟨x, some v, v.ty⟩ :: env.frames⟩

def lookupFrame : List TyFrame → String → Nat → Nat → Option (Nat × TyFrame)
  | [], _, _, _ => none
  | f :: rest, name, k, d =>
    if f.name = name then
      if k = 0 then some (d, f) else lookupFrame rest name (k - 1) (d + 1)
    else lookupFrame rest name k (d + 1)

/-- Rust `TyEnv::lookup`: de Bruijn index and frame of a source variable. -/
def TyEnv.lookup (env : TyEnv) (v : V) : Option (Nat × TyFrame) :=
  lookupFrame env.frames v.name v.idx 0

/-- Rust `TyEnv::as_nzenv`: the normalizer's view — bound values where
present, neutral variables (with the frame's type) elsewhere.  The frame
at index `i` (0 = innermost) has level `size - 1 - i`. -/
def TyEnv.asNzEnv (env : TyEnv) : List Value :=
  env.frames.enum.map (fun p =>
    p.2.val.getD (Value.mk (ValueKind.var (env.frames.length - 1 - p.1))
      p.2.ty))

/-! ## The typechecker (`semantics/tck/typecheck.rs`) -/

/-- Rust `type_of_recordtype`: fold the field types' universes with `max`,
starting from `Type` (the empty record type has type `Type`); a field
type that is not a `Const` is an `InvalidFieldType` error. -/
def typeOfRecordtype (tys : List TyExpr) : Except Err Value := do
  let k ← tys.foldlM (fun k t => do
    let ty ← t.getType
    match ty.asConst with
    | some c => Except.ok (cmax k c)
    | none => mkerr "InvalidFieldType") Const.type
  Except.ok (vConst k)

/-- Rust `type_of_function`: both the domain's and codomain's types must be
constants; the result is the `function_check` universe. -/
def typeOfFunction (src tgt : Value) : Except Err Value := do
  let ks ← match src.asConst with
    | some k => Except.ok k
    | none => Except.error (Err.typeError (TypeMessage.invalidInputType src))
  let kt ← match tgt.asConst with
    | some k => Except.ok k
    | none => Except.error (Err.typeError (TypeMessage.invalidOutputType tgt))
  Except.ok (vConst (functionCheck ks kt))

/-- Modelled from the spec: the `Builtin` rule is
`type = normalize(typecheck(type_of_builtin(b)))` with `type_of_builtin`
external; for the embedded builtins that value is computed here
directly (`Bool, Natural : Type` and `Optional : ∀(_ : Type) → Type`). -/
def builtinTypeValue : Builtin → Value
  | .bool => vType
  | .natural => vType
  | .optional =>
    Value.mk (ValueKind.piClosure "_" vType (Closure.mk [] teConstType))
      (some vKind)

/-- The body of the `for (x, handler_type) in handlers` loop of the
Merge case, one handler at a time: look the handler's key up among the
variants, compute the handler's return type (`MergeHandlerMissingVariant`
/ `NotAFunction` / `MergeHandlerTypeMismatch` /
`MergeReturnTypeIsDependent` on the respective failures) and merge it
into the running `inferred_type` (`MergeHandlerTypeMismatch` on
disagreement). -/
def mergeHandlerStep (n : Nat) (variants : List (String × Option Value))
    (inferred : Option Value) (p : String × Value) :
    Except Err (Option Value) := do
  let hrt ← match assocLookup variants p.1 with
    | some (some variantType) =>
      (match p.2.kind with
      | ValueKind.piClosure _ annot cl =>
        if !beqV n variantType annot then mkerr "MergeHandlerTypeMismatch"
        else do
          let r ← removeBinder n cl
          match r with
          | some t => pure t
          | none => mkerr "MergeReturnTypeIsDependent"
      | _ => mkerr "NotAFunction")
    | some none => pure p.2
    | none => mkerr "MergeHandlerMissingVariant"
  match inferred with
  | none => pure (some hrt)
  | some t =>
    if !beqV n t hrt then mkerr "MergeHandlerTypeMismatch"
    else pure (some t)

/-- The body of the `for x in variants.keys()` check of the Merge case:
every variant must have a handler. -/
def mergeVariantCheck (handlers : List (String × Value))
    (p : String × Option Value) : Except Err Unit :=
  if (assocLookup handlers p.1).isNone then
    mkerr "MergeVariantMissingHandler"
  else pure ()

/-- Rust `type_one_layer`: the type of the toplevel layer once every
subexpression has been typed.  Binder forms, `Const Sort` and the
resolver-only forms are unreachable here (handled in `type_with`). -/
def typeOneLayer : Nat → TyEnv → TyExprKind → Except Err Value
  | 0, _, _ => Except.error Err.outOfFuel
  | n + 1, env, kind =>
    match kind with
    | .var _ => Except.error (Err.panic "handled in type_with")
    | .lam _ _ _ => Except.error (Err.panic "handled in type_with")
    | .pi _ _ _ => Except.error (Err.panic "handled in type_with")
    | .letE _ _ _ _ => Except.error (Err.panic "handled in type_with")
    | .const .sort => Except.error (Err.panic "handled in type_with")
    | .const .type => Except.ok (vConst Const.kind)
    | .const .kind => Except.ok (vConst Const.sort)
    | .builtin b => Except.ok (builtinTypeValue b)
    | .boolLit _ => Except.ok (Value.fromBuiltin Builtin.bool)
    | .natLit _ => Except.ok (Value.fromBuiltin Builtin.natural)
    | .someLit x => do
      let t ← x.getType
      let tt ← t.getType
      if tt.asConst ≠ some Const.type then mkerr "InvalidOptionalType"
      else Except.ok (Value.app n (Value.fromBuiltin Builtin.optional) t)
    | .recordLit kvs => do
      let kts ← kvs.foldlM (fun acc p => do
        match assocLookup acc p.1 with
        | some _ => mkerr "RecordTypeDuplicateField"
        | none => do
          let t ← p.2.getType
          pure (acc ++ [(p.1, t)])) ([] : List (String × Value))
      let quoted ← kts.mapM (fun p => quote n env.size p.2)
      let ty ← typeOfRecordtype quoted
      Except.ok (Value.mk (ValueKind.recordType kts) (some ty))
    | .recordType kts => do
      let _ ← kts.foldlM (fun acc p =>
        match assocLookup acc p.1 with
        | some _ => mkerr "RecordTypeDuplicateField"
        | none => pure (acc ++ [(p.1, ())])) ([] : List (String × Unit))
      typeOfRecordtype (kts.map (fun p => p.2))
    | .unionType kts => do
      let res ← kts.foldlM
        (fun (acc : List (String × Unit) × Option Const) p => do
          let k ← match p.2 with
            | some t => do
              let tt ← t.getType
              match acc.2, tt.asConst with
              | none, some k2 => pure (some k2)
              | some k1, some k2 =>
                if k1 = k2 then pure (some k1) else mkerr "InvalidFieldType"
              | _, _ => mkerr "InvalidFieldType"
            | none => pure acc.2
          match assocLookup acc.1 p.1 with
          | some _ => mkerr "UnionTypeDuplicateField"
          | none => pure (acc.1 ++ [(p.1, ())], k)) ([], none)
      Except.ok (vConst (res.2.getD Const.type))
    | .app f arg => do
      let tf ← f.getType
      match tf.kind with
      | .piClosure _ annot cl => do
        let ta ← arg.getType
        if !beqV n ta annot then mkerr "function annot mismatch"
        else do
          let argNf ← eval n env.asNzEnv arg
          applyClosure n cl argNf
      | _ => mkerr "apply to not Pi"
    | .annot x t => do
      let tv ← eval n env.asNzEnv t
      let xTy ← x.getType
      if !beqV n xTy tv then mkerr "annot mismatch" else Except.ok xTy
    | .boolIf x y z => do
      let tx ← x.getType
      let okBool := match tx.kind with
        | .appliedBuiltin .bool [] => true
        | _ => false
      if !okBool then mkerr "InvalidPredicate"
      else do
        let ty1 ← y.getType
        let tty ← ty1.getType
        if tty.asConst ≠ some Const.type then mkerr "IfBranchMustBeTerm"
        else do
          let tz ← z.getType
          let ttz ← tz.getType
          if ttz.asConst ≠ some Const.type then mkerr "IfBranchMustBeTerm"
          else if !beqV n ty1 tz then mkerr "IfBranchMismatch"
          else Except.ok ty1
    | .combine x y => do
      let xTy ← x.getType
      let yTy ← y.getType
      let ktsX ← match xTy.kind with
        | .recordType kts => pure kts
        | _ => mkerr "MustCombineRecord"
      let ktsY ← match yTy.kind with
        | .recordType kts => pure kts
        | _ => mkerr "MustCombineRecord"
      let kts := ktsX.filter (fun p => (assocLookup ktsY p.1).isNone) ++ ktsY
      let quoted ← kts.mapM (fun p => quote n env.size p.2)
      let ty ← typeOfRecordtype quoted
      Except.ok (Value.mk (ValueKind.recordType kts) (some ty))
    | .projection r labels => do
      let rTy ← r.getType
      let kts ← match rTy.kind with
        | .recordType kts => pure kts
        | _ => mkerr "ProjectionMustBeRecord"
      let newKts ← labels.foldlM (fun acc l => do
        match assocLookup kts l with
        | none => mkerr "ProjectionMissingEntry"
        | some t =>
          match assocLookup acc l with
          | some _ => mkerr "ProjectionDuplicateField"
          | none => pure (acc ++ [(l, t)])) ([] : List (String × Value))
      let srcTy ← rTy.getType
      Except.ok (Value.mk (ValueKind.recordType newKts) (some srcTy))
    | .merge rec scrut tannot => do
      let recTy ← rec.getType
      let handlers ← match recTy.kind with
        | .recordType kts => pure kts
        | _ => mkerr "Merge1ArgMustBeRecord"
      let unionTy ← scrut.getType
      let variants ← match unionTy.kind with
        | .unionType kts => pure kts
        | .appliedBuiltin .optional [t] =>
          pure [("None", (none : Option Value)), ("Some", some t)]
        | _ => mkerr "Merge2ArgMustBeUnionOrOptional"
      let inferred ← handlers.foldlM (mergeHandlerStep n variants)
        (none : Option Value)
      let _ ← variants.mapM (mergeVariantCheck handlers)
      let tannotV ← match tannot with
        | none => pure (none : Option Value)
        | some t => do
          let v ← eval n env.asNzEnv t
          pure (some v)
      match inferred, tannotV with
      | some t1, some t2 =>
        if !beqV n t1 t2 then mkerr "MergeAnnotMismatch" else Except.ok t1
      | some t, none => Except.ok t
      | none, some t => Except.ok t
      | none, none => mkerr "MergeEmptyNeedsAnnotation"

/-- Rust `type_with`: typecheck an expression, annotating every node.  Binder
forms and `Const Sort` are handled directly; every other form types its
children and delegates to `type_one_layer`. -/
def typeWith : Nat → TyEnv → Expr → Except Err TyExpr
  | 0, _, _ => Except.error Err.outOfFuel
  | n + 1, env, e =>
    match e with
    | .var v =>
      match env.lookup v with
      | some (a, f) =>
        match f.ty with
        | some ty => Except.ok (TyExpr.mk (TyExprKind.var a) (some ty))
        | none => mkerr "Sort does not have a type"
      | none => mkerr "unbound variable"
    | .lam x annot body => do
      let annotTE ← typeWith n env annot
      let annotNf ← eval n env.asNzEnv annotTE
      let bodyEnv := env.insertType x annotNf
      let bodyTE ← typeWith n bodyEnv body
      let bodyTy ← bodyTE.getType
      let quotedBodyTy ← quote n bodyEnv.size bodyTy
      let annotTy ← annotTE.getType
      let bodyTyTy ← bodyTy.getType
      let piTy ← typeOfFunction annotTy bodyTyTy
      let tyTE := TyExpr.mk (TyExprKind.pi x annotTE quotedBodyTy) (some piTy)
      let ty ← eval n env.asNzEnv tyTE
      Except.ok (TyExpr.mk (TyExprKind.lam x annotTE bodyTE) (some ty))
    | .pi x annot body => do
      let annotTE ← typeWith n env annot
      let annotNf ← eval n env.asNzEnv annotTE
      let bodyTE ← typeWith n (env.insertType x annotNf) body
      let annotTy ← annotTE.getType
      let bodyTy ← bodyTE.getType
      let ty ← typeOfFunction annotTy bodyTy
      Except.ok (TyExpr.mk (TyExprKind.pi x annotTE bodyTE) (some ty))
    | .letE x tan val body => do
      let valAnnotated := match tan with
        | some t => Expr.annot val t
        | none => val
      let valTE ← typeWith n env valAnnotated
      let valNf ← eval n env.asNzEnv valTE
      let bodyTE ← typeWith n (env.insertValue x valNf) body
      Except.ok (TyExpr.mk (TyExprKind.letE x none valTE bodyTE) bodyTE.ty)
    | .const .sort =>
      Except.ok (TyExpr.mk (TyExprKind.const Const.sort) none)
    | .const c => do
      let ty ← typeOneLayer n env (TyExprKind.const c)
      Except.ok (TyExpr.mk (TyExprKind.const c) (some ty))
    | .builtin b => do
      let ty ← typeOneLayer n env (TyExprKind.builtin b)
      Except.ok (TyExpr.mk (TyExprKind.builtin b) (some ty))
    | .boolLit b => do
      let ty ← typeOneLayer n env (TyExprKind.boolLit b)
      Except.ok (TyExpr.mk (TyExprKind.boolLit b) (some ty))
    | .natLit m => do
      let ty ← typeOneLayer n env (TyExprKind.natLit m)
      Except.ok (TyExpr.mk (TyExprKind.natLit m) (some ty))
    | .app f arg => do
      let fTE ← typeWith n env f
      let argTE ← typeWith n env arg
      let k := TyExprKind.app fTE argTE
      let ty ← typeOneLayer n env k
      Except.ok (TyExpr.mk k (some ty))
    | .annot x t => do
      let xTE ← typeWith n env x
      let tTE ← typeWith n env t
      let k := TyExprKind.annot xTE tTE
      let ty ← typeOneLayer n env k
      Except.ok (TyExpr.mk k (some ty))
    | .someLit x => do
      let xTE ← typeWith n env x
      let k := TyExprKind.someLit xTE
      let ty ← typeOneLayer n env k
      Except.ok (TyExpr.mk k (some ty))
    | .recordLit kvs => do
      let kvs ← kvs.mapM (fun p => do
        let te ← typeWith n env p.2
        pure (p.1, te))
      let k := TyExprKind.recordLit kvs
      let ty ← typeOneLayer n env k
      Except.ok (TyExpr.mk k (some ty))
    | .recordType kts => do
      let kts ← kts.mapM (fun p => do
        let te ← typeWith n env p.2
        pure (p.1, te))
      let k := TyExprKind.recordType kts
      let ty ← typeOneLayer n env k
      Except.ok (TyExpr.mk k (some ty))
    | .unionType kts => do
      let kts ← kts.mapM (fun p =>
        match p.2 with
        | none => pure (p.1, (none : Option TyExpr))
        | some t => do
          let te ← typeWith n env t
          pure (p.1, some te))
      let k := TyExprKind.unionType kts
      let ty ← typeOneLayer n env k
      Except.ok (TyExpr.mk k (some ty))
    | .projection r labels => do
      let rTE ← typeWith n env r
      let k := TyExprKind.projection rTE labels
      let ty ← typeOneLayer n env k
      Except.ok (TyExpr.mk k (some ty))
    | .merge rec scrut tannot => do
      let recTE ← typeWith n env rec
      let scrutTE ← typeWith n env scrut
      let tannotTE ← match tannot with
        | none => pure (none : Option TyExpr)
        | some t => do
          let te ← typeWith n env t
          pure (some te)
      let k := TyExprKind.merge recTE scrutTE tannotTE
      let ty ← typeOneLayer n env k
      Except.ok (TyExpr.mk k (some ty))
    | .boolIf c t e => do
      let cTE ← typeWith n env c
      let tTE ← typeWith n env t
      let eTE ← typeWith n env e
      let k := TyExprKind.boolIf cTE tTE eTE
      let ty ← typeOneLayer n env k
      Except.ok (TyExpr.mk k (some ty))
    | .combine x y => do
      let xTE ← typeWith n env x
      let yTE ← typeWith n env y
      let k := TyExprKind.combine xTE yTE
      let ty ← typeOneLayer n env k
      Except.ok (TyExpr.mk k (some ty))

/-- Rust `typecheck`: `type_with` from the empty environment. -/
def typecheck (fuel : Nat) (e : Expr) : Except Err TyExpr :=
  typeWith fuel TyEnv.empty e

/-- Rust `typecheck_with`: typecheck the expression wrapped in an annotation
with the provided type. -/
def typecheckWith (fuel : Nat) (e t : Expr) : Except Err TyExpr :=
  typecheck fuel (Expr.annot e t)

/-! ## Helper lemmas -/

theorem enumFilterGet (name : String) :
    ∀ (l : List String) (off k d : Nat) (m : String),
    ((l.enumFrom off).filter (fun p => p.2 = name)).get? k = some (d, m) →
    m = name ∧ off ≤ d ∧ l.get? (d - off) = some name ∧
      ((l.take (d - off)).filter (fun s => s = name)).length = k := by
  intro l
  induction l with
  | nil =>
    intro off k d m h
    simp [List.enumFrom] at h
  | cons x xs ih =>
    intro off k d m h
    rw [List.enumFrom_cons, List.filter_cons] at h
    by_cases hx : x = name
    · simp only [hx, decide_true_eq_true] at h
      rw [if_pos trivial] at h
      match k, h with
      | 0, h =>
        simp only [List.get?, Option.some.injEq, Prod.mk.injEq] at h
        obtain ⟨hd, hm⟩ := h
        subst hd
        refine ⟨hm.symm, le_refl _, ?_, ?_⟩
        · simp [Nat.sub_self, hx]
        · simp [Nat.sub_self]
      | k + 1, h =>
        simp only [List.get?] at h
        obtain ⟨hm, hle, hget, hcount⟩ := ih (off + 1) k d m h
        obtain ⟨e, he⟩ : ∃ e, d - off = e + 1 := ⟨d - off - 1, by omega⟩
        have he2 : e = d - (off + 1) := by omega
        refine ⟨hm, by omega, ?_, ?_⟩
        · rw [he]
          simpa [he2] using hget
        · rw [he, List.take_succ_cons, List.filter_cons]
          simp only [hx, decide_true_eq_true]
          rw [if_pos trivial]
          simp only [List.length_cons]
          rw [he2, hcount]
    · have hxd : (decide (x = name)) = false := by simp [hx]
      rw [hxd] at h
      rw [if_neg (by simp)] at h
      obtain ⟨hm, hle, hget, hcount⟩ := ih (off + 1) k d m h
      obtain ⟨e, he⟩ : ∃ e, d - off = e + 1 := ⟨d - off - 1, by omega⟩
      have he2 : e = d - (off + 1) := by omega
      refine ⟨hm, by omega, ?_, ?_⟩
      · rw [he]
        simpa [he2] using hget
      · rw [he, List.take_succ_cons, List.filter_cons]
        rw [hxd]
        rw [if_neg (by simp)]
        rw [he2]
        exact hcount

theorem filterEnumFromLength (q : String → Bool) :
    ∀ (l : List String) (off : Nat),
    (List.filter (fun p => q p.2) (l.enumFrom off)).length
      = (l.filter q).length := by
  intro l
  induction l with
  | nil => intro off; rfl
  | cons x xs ih =>
    intro off
    rw [List.enumFrom_cons, List.filter_cons, List.filter_cons]
    by_cases hq : q x = true
    · simp only [hq, if_true, List.length_cons]
      rw [ih (off + 1)]
    · simp only [hq, if_false]
      exact ih (off + 1)

theorem filterEnumLength (l : List String) (q : String → Bool) :
    (List.filter (fun p => q p.2) l.enum).length = (l.filter q).length :=
  filterEnumFromLength q l 0

/-! ## Claim C4 -/

/-- C4: for every NameEnv and every variable `V(name, k)` for which
`unlabel_var` returns `some d`, `label_var d` returns `V(name, k)` (and
the bounds-checked `label_var` succeeds on `d`): the two translations
form a round-trip identity on in-scope variables. -/
theorem unlabelVar_labelVar (env : NameEnv) (v : V) (d : Nat)
    (h : env.unlabelVar v = some d) :
    env.labelVar d = v ∧ env.labelVarChecked d = some v := by
  unfold NameEnv.unlabelVar at h
  obtain ⟨⟨d', m⟩, hget, hd⟩ := Option.map_eq_some'.mp h
  simp only at hd
  subst hd
  have henum : env.names.reverse.enum = env.names.reverse.enumFrom 0 := rfl
  rw [henum] at hget
  obtain ⟨hm, _, hget2, hcount⟩ :=
    enumFilterGet v.name env.names.reverse 0 v.idx d' m hget
  rw [Nat.sub_zero] at hget2 hcount
  have hlt : d' < env.names.reverse.length := by
    rw [List.get?_eq_some] at hget2
    exact hget2.1
  have hltn : d' < env.names.length := by
    rwa [List.length_reverse] at hlt
  have hrev : env.names.reverse.get? d'
      = env.names.get? (env.names.length - 1 - d') :=
    List.get?_reverse hltn
  have hname : env.names.getD (env.names.length - 1 - d') "" = v.name := by
    have hsome : env.names.get? (env.names.length - 1 - d') = some v.name := by
      rw [← hrev]; exact hget2
    show (env.names.get? (env.names.length - 1 - d')).getD "" = v.name
    rw [hsome]
    rfl
  have hlabel : env.labelVar d' = v := by
    unfold NameEnv.labelVar
    simp only [hname]
    cases v with
    | mk name idx =>
      simp only [V.mk.injEq]
      exact ⟨trivial, hcount⟩
  refine ⟨hlabel, ?_⟩
  unfold NameEnv.labelVarChecked
  rw [if_pos hltn, hlabel]

/-- Witness for C4 under the environment `[x, y, x]` (innermost last):
`V("x", 1)` resolves to de Bruijn index 2 and labels back to itself. -/
theorem unlabelVar_labelVar_witness :
    (NameEnv.mk ["x", "y", "x"]).unlabelVar ⟨"x", 1⟩ = some 2 ∧
    (NameEnv.mk ["x", "y", "x"]).labelVar 2 = ⟨"x", 1⟩ :=
  ⟨rfl, (unlabelVar_labelVar ⟨["x", "y", "x"]⟩ ⟨"x", 1⟩ 2 rfl).1⟩

/-! ## Claim C10 -/

/-- C10: `label_var` is total only under `d < size` — the bounds-checked
version (`none` models the source's panic on
`names[len - 1 - d]`) fails exactly when `d ≥ size` and agrees with
`label_var` below the bound — while `unlabel_var` returns `none`, not a
panic, whenever the environment holds at most `k` frames with the
requested name. -/
theorem labelVar_partiality :
    (∀ (env : NameEnv) (d : Nat), env.size ≤ d → env.labelVarChecked d = none) ∧
    (∀ (env : NameEnv) (d : Nat), d < env.size →
      env.labelVarChecked d = some (env.labelVar d)) ∧
    (∀ (env : NameEnv) (name : String) (k : Nat),
      (env.names.filter (fun s => s = name)).length ≤ k →
      env.unlabelVar ⟨name, k⟩ = none) := by
  refine ⟨?_, ?_, ?_⟩
  · intro env d h
    unfold NameEnv.labelVarChecked
    rw [if_neg (by unfold NameEnv.size at h; omega)]
  · intro env d h
    unfold NameEnv.labelVarChecked
    rw [if_pos (by unfold NameEnv.size at h; exact h)]
  · intro env name k h
    unfold NameEnv.unlabelVar
    have hlen : ((env.names.reverse.enum).filter
        (fun p => p.2 = name)).length ≤ k := by
      rw [filterEnumLength env.names.reverse (fun s => s = name)]
      rw [List.filter_reverse, List.length_reverse]
      exact h
    rw [List.get?_len_le hlen]
    rfl

/-- Witness for C10 on the one-frame environment `[x]`: depth 1 is out
of bounds (modelled panic), depth 0 labels fine, and the out-of-scope
`V("x", 1)` unlabels to `none`. -/
theorem labelVar_partiality_witness :
    (NameEnv.mk ["x"]).labelVarChecked 1 = none ∧
    (NameEnv.mk ["x"]).labelVarChecked 0 = some ⟨"x", 0⟩ ∧
    (NameEnv.mk ["x"]).unlabelVar ⟨"x", 1⟩ = none :=
  ⟨labelVar_partiality.1 ⟨["x"]⟩ 1 (by decide),
   by rw [labelVar_partiality.2.1 ⟨["x"]⟩ 0 (by decide)]; rfl,
   labelVar_partiality.2.2 ⟨["x"]⟩ "x" 1 (by decide)⟩

/-! ## Claim C3 -/

/-- C3: for every ImportEnv, location and resolver `f` (a state
transformer that manages the cycle stack only through
`with_cycle_detection`, hence leaves it as it found it): if the location
is already on the stack, `with_cycle_detection` fails with `ImportCycle`
over the pre-call snapshot and leaves the environment untouched, without
consulting `f` (the result is the same for every `f`); otherwise it
pushes, runs `f`, pops unconditionally and returns `f`'s result
(success or failure alike).  In both cases the stack depth after the
call equals the depth before it. -/
theorem withCycleDetection_spec {Loc Typed Hash CErr : Type}
    [DecidableEq Loc] (env : ImportEnv Loc Typed Hash CErr) (loc : Loc)
    (f : ImportEnv Loc Typed Hash CErr →
      Except (ImportError Loc) Typed × ImportEnv Loc Typed Hash CErr)
    (hf : ∀ e, ((f e).2).stack = e.stack) :
    (loc ∈ env.stack →
      env.withCycleDetection loc f
        = (Except.error (ImportError.importCycle env.stack loc), env)) ∧
    (loc ∉ env.stack →
      (env.withCycleDetection loc f).1
          = (f { env with stack := loc :: env.stack }).1 ∧
      ((env.withCycleDetection loc f).2).stack = env.stack) ∧
    ((env.withCycleDetection loc f).2).stack.length = env.stack.length := by
  by_cases hmem : loc ∈ env.stack
  · refine ⟨fun _ => ?_, fun h => absurd hmem h, ?_⟩
    · unfold ImportEnv.withCycleDetection
      rw [if_pos hmem]
    · unfold ImportEnv.withCycleDetection
      rw [if_pos hmem]
  · have hbody : (env.withCycleDetection loc f).1
          = (f { env with stack := loc :: env.stack }).1 ∧
        ((env.withCycleDetection loc f).2).stack = env.stack := by
      unfold ImportEnv.withCycleDetection
      rw [if_neg hmem]
      refine ⟨rfl, ?_⟩
      show ((f { env with stack := loc :: env.stack }).2).stack.tail = env.stack
      rw [hf { env with stack := loc :: env.stack }]
      rfl
    refine ⟨fun h => absurd h hmem, fun _ => hbody, ?_⟩
    rw [hbody.2]

/-- Witness for C3: a fresh environment, a resolver that succeeds
immediately; the call returns the resolver's result and restores the
empty stack. -/
theorem withCycleDetection_spec_witness :
    (((ImportEnv.mk none [] [] : ImportEnv Nat Nat Nat Unit)).withCycleDetection
        0 (fun e => (Except.ok 7, e))).1 = Except.ok 7 ∧
    (((ImportEnv.mk none [] [] : ImportEnv Nat Nat Nat Unit)).withCycleDetection
        0 (fun e => (Except.ok 7, e))).2.stack = [] := by
  have h := withCycleDetection_spec
    (ImportEnv.mk none [] [] : ImportEnv Nat Nat Nat Unit) 0
    (fun e => (Except.ok 7, e)) (fun _ => rfl)
  obtain ⟨-, h2, -⟩ := h
  obtain ⟨h21, h22⟩ := h2 (List.not_mem_nil 0)
  exact ⟨h21, h22⟩

/-! ## Claim C7 -/

/-- C7: `get_from_cache` consults the memory cache first (a memory hit
is returned whatever the hash or the persistent cache); on a memory miss
it yields a miss when no hash is supplied or no persistent cache is
live, and a persistent-cache error becomes a miss rather than
propagating; `set_cache` always installs into the memory cache, so a
`get_from_cache` at the same location afterwards returns the stored
value. -/
theorem cache_spec {Loc Typed Hash CErr : Type} [DecidableEq Loc]
    (env : ImportEnv Loc Typed Hash CErr) :
    (∀ (loc : Loc) (t : Typed) (hash : Option Hash),
      (env.setCache loc t).getFromCache loc hash = some t) ∧
    (∀ (loc : Loc) (t : Typed) (hash : Option Hash),
      assocLookup env.memCache loc = some t →
      env.getFromCache loc hash = some t) ∧
    (∀ (loc : Loc), assocLookup env.memCache loc = none →
      env.getFromCache loc none = none) ∧
    (∀ (loc : Loc) (h : Hash), assocLookup env.memCache loc = none →
      env.fileCache = none → env.getFromCache loc (some h) = none) ∧
    (∀ (loc : Loc) (h : Hash) (fc : FileCache Hash Typed CErr) (e : CErr),
      assocLookup env.memCache loc = none → env.fileCache = some fc →
      fc.get h = Except.error e → env.getFromCache loc (some h) = none) := by
  refine ⟨?_, ?_, ?_, ?_, ?_⟩
  · intro loc t hash
    unfold ImportEnv.getFromCache ImportEnv.setCache
    simp [assocLookup]
  · intro loc t hash hmem
    unfold ImportEnv.getFromCache
    rw [hmem]
  · intro loc hmem
    unfold ImportEnv.getFromCache
    rw [hmem]
    rfl
  · intro loc h hmem hfc
    unfold ImportEnv.getFromCache
    rw [hmem, hfc]
    rfl
  · intro loc h fc e hmem hfc hget
    unfold ImportEnv.getFromCache
    rw [hmem, hfc]
    show (fc.get h).toOption = none
    rw [hget]
    rfl

/-- Witness for C7 on a concrete environment whose persistent cache
always fails: reads after writes hit the memory cache, and the failing
persistent probe is a plain miss. -/
theorem cache_spec_witness :
    (((ImportEnv.mk (some ⟨fun _ => Except.error ()⟩) [] []
        : ImportEnv Nat Nat Nat Unit)).setCache 4 11).getFromCache
        4 (some 9) = some 11 ∧
    ((ImportEnv.mk (some ⟨fun _ => Except.error ()⟩) [] []
        : ImportEnv Nat Nat Nat Unit)).getFromCache 4 (some 9)
      = none := by
  have h := cache_spec
    (ImportEnv.mk (some ⟨fun _ => Except.error ()⟩) [] []
      : ImportEnv Nat Nat Nat Unit)
  exact ⟨h.1 4 11 (some 9),
    h.2.2.2.2 4 9 ⟨fun _ => Except.error ()⟩ () rfl rfl rfl⟩

/-! ## Bind helper -/

theorem exOkBind {α β : Type} (a : α) (f : α → Except Err β) :
    (Except.ok a >>= f) = f a := rfl

/-! ## Claim C6 -/

theorem pi_rule (n : Nat) (env : TyEnv) (x : String) (annot body : Expr)
    (aTE bTE : TyExpr) (aNf aTy bTy : Value) (ka kb : Const)
    (h1 : typeWith n env annot = Except.ok aTE)
    (h2 : eval n env.asNzEnv aTE = Except.ok aNf)
    (h3 : typeWith n (env.insertType x aNf) body = Except.ok bTE)
    (h4 : aTE.getType = Except.ok aTy)
    (h5 : bTE.getType = Except.ok bTy)
    (h6 : aTy.asConst = some ka)
    (h7 : bTy.asConst = some kb) :
    typeWith (n + 1) env (Expr.pi x annot body)
      = Except.ok (TyExpr.mk (TyExprKind.pi x aTE bTE)
          (some (vConst (functionCheck ka kb)))) := by
  show (do
    let annotTE ← typeWith n env annot
    let annotNf ← eval n env.asNzEnv annotTE
    let bodyTE ← typeWith n (env.insertType x annotNf) body
    let annotTy ← annotTE.getType
    let bodyTy ← bodyTE.getType
    let ty ← typeOfFunction annotTy bodyTy
    Except.ok (TyExpr.mk (TyExprKind.pi x annotTE bodyTE) (some ty)))
      = Except.ok (TyExpr.mk (TyExprKind.pi x aTE bTE)
          (some (vConst (functionCheck ka kb))))
  rw [h1, exOkBind, h2, exOkBind, h3, exOkBind, h4, exOkBind, h5, exOkBind]
  unfold typeOfFunction
  rw [h6, h7]
  rfl

/-- C6, counterexample to "typecheck(Pi(x, Type, Var x)) yields type
Kind": the typechecker assigns that expression the type `Type` —
`function_check(Kind, Type) = Type` because the codomain universe is
`Type`. -/
theorem pi_type_var_counterexample :
    (typecheck 30 (Expr.pi "x" (Expr.const Const.type)
        (Expr.var ⟨"x", 0⟩))).map (fun te => te.ty.map Value.asConst)
      = Except.ok (some (some Const.type)) ∧
    Const.type ≠ Const.kind :=
  ⟨rfl, by decide⟩

/-- C6 (amended): `function_check(a, b)` returns `Type` when `b = Type`
and `max(a, b)` otherwise; the type of `Pi(x, A, B)` is the constant
`function_check(univ(A), univ(B))`; in particular
`typecheck(Pi(x, Type, Var x))` yields type `Type` (since
`function_check(Kind, Type) = Type`), not `Kind`. -/
theorem functionCheck_rule :
    (∀ a : Const, functionCheck a Const.type = Const.type) ∧
    (∀ a b : Const, b ≠ Const.type → functionCheck a b = cmax a b) ∧
    (∀ (n : Nat) (env : TyEnv) (x : String) (annot body : Expr)
      (aTE bTE : TyExpr) (aNf aTy bTy : Value) (ka kb : Const),
      typeWith n env annot = Except.ok aTE →
      eval n env.asNzEnv aTE = Except.ok aNf →
      typeWith n (env.insertType x aNf) body = Except.ok bTE →
      aTE.getType = Except.ok aTy →
      bTE.getType = Except.ok bTy →
      aTy.asConst = some ka →
      bTy.asConst = some kb →
      typeWith (n + 1) env (Expr.pi x annot body)
        = Except.ok (TyExpr.mk (TyExprKind.pi x aTE bTE)
            (some (vConst (functionCheck ka kb))))) ∧
    ((typecheck 30 (Expr.pi "x" (Expr.const Const.type)
        (Expr.var ⟨"x", 0⟩))).map TyExpr.ty
      = Except.ok (some (vConst (functionCheck Const.kind Const.type))) ∧
      vConst (functionCheck Const.kind Const.type) = vType) := by
  refine ⟨fun a => rfl, fun a b h => ?_, ?_, rfl, rfl⟩
  · unfold functionCheck
    rw [if_neg h]
  · intro n env x annot body aTE bTE aNf aTy bTy ka kb h1 h2 h3 h4 h5 h6 h7
    exact pi_rule n env x annot body aTE bTE aNf aTy bTy ka kb
      h1 h2 h3 h4 h5 h6 h7

/-- Witness for C6 applying the Pi rule at `Pi(x, Type, Var x)` and the
`function_check` equation at `(Kind, Kind)`. -/
theorem functionCheck_rule_witness :
    typeWith 30 TyEnv.empty (Expr.pi "x" (Expr.const Const.type)
        (Expr.var ⟨"x", 0⟩))
      = Except.ok (TyExpr.mk (TyExprKind.pi "x"
          (TyExpr.mk (TyExprKind.const Const.type) (some vKind))
          (TyExpr.mk (TyExprKind.var 0) (some vType)))
          (some (vConst (functionCheck Const.kind Const.type)))) ∧
    functionCheck Const.kind Const.kind = cmax Const.kind Const.kind :=
  ⟨functionCheck_rule.2.2.1 29 TyEnv.empty "x" (Expr.const Const.type)
      (Expr.var ⟨"x", 0⟩)
      (TyExpr.mk (TyExprKind.const Const.type) (some vKind))
      (TyExpr.mk (TyExprKind.var 0) (some vType))
      vType vKind vType Const.kind Const.type
      rfl rfl rfl rfl rfl rfl rfl,
   functionCheck_rule.2.1 Const.kind Const.kind (by decide)⟩

/-! ## Claim C9 -/

theorem boolIfPredicate (n : Nat) (env : TyEnv) (x y z : TyExpr)
    (tx : Value) (hx : x.getType = Except.ok tx)
    (hnb : (match tx.kind with
      | ValueKind.appliedBuiltin Builtin.bool [] => true
      | _ => false) = false) :
    typeOneLayer (n + 1) env (TyExprKind.boolIf x y z)
      = mkerr "InvalidPredicate" := by
  show (do
    let tx ← x.getType
    let okBool := match tx.kind with
      | ValueKind.appliedBuiltin Builtin.bool [] => true
      | _ => false
    if !okBool then mkerr "InvalidPredicate"
    else do
      let ty1 ← y.getType
      let tty ← ty1.getType
      if tty.asConst ≠ some Const.type then mkerr "IfBranchMustBeTerm"
      else do
        let tz ← z.getType
        let ttz ← tz.getType
        if ttz.asConst ≠ some Const.type then mkerr "IfBranchMustBeTerm"
        else if !beqV n ty1 tz then mkerr "IfBranchMismatch"
        else Except.ok ty1) = mkerr "InvalidPredicate"
  rw [hx, exOkBind, hnb]
  rfl

theorem boolIfTermY (n : Nat) (env : TyEnv) (x y z : TyExpr)
    (tx ty1 tty : Value) (hx : x.getType = Except.ok tx)
    (hb : tx.kind = ValueKind.appliedBuiltin Builtin.bool [])
    (hy : y.getType = Except.ok ty1)
    (hty : ty1.getType = Except.ok tty)
    (hconst : tty.asConst ≠ some Const.type) :
    typeOneLayer (n + 1) env (TyExprKind.boolIf x y z)
      = mkerr "IfBranchMustBeTerm" := by
  show (do
    let tx ← x.getType
    let okBool := match tx.kind with
      | ValueKind.appliedBuiltin Builtin.bool [] => true
      | _ => false
    if !okBool then mkerr "InvalidPredicate"
    else do
      let ty1 ← y.getType
      let tty ← ty1.getType
      if tty.asConst ≠ some Const.type then mkerr "IfBranchMustBeTerm"
      else do
        let tz ← z.getType
        let ttz ← tz.getType
        if ttz.asConst ≠ some Const.type then mkerr "IfBranchMustBeTerm"
        else if !beqV n ty1 tz then mkerr "IfBranchMismatch"
        else Except.ok ty1) = mkerr "IfBranchMustBeTerm"
  simp only [hx, hy, hty, exOkBind, hb]
  simp [hconst]

theorem boolIfTermZ (n : Nat) (env : TyEnv) (x y z : TyExpr)
    (tx ty1 tty tz ttz : Value) (hx : x.getType = Except.ok tx)
    (hb : tx.kind = ValueKind.appliedBuiltin Builtin.bool [])
    (hy : y.getType = Except.ok ty1)
    (hty : ty1.getType = Except.ok tty)
    (htyc : tty.asConst = some Const.type)
    (hz : z.getType = Except.ok tz)
    (httz : tz.getType = Except.ok ttz)
    (hconst : ttz.asConst ≠ some Const.type) :
    typeOneLayer (n + 1) env (TyExprKind.boolIf x y z)
      = mkerr "IfBranchMustBeTerm" := by
  show (do
    let tx ← x.getType
    let okBool := match tx.kind with
      | ValueKind.appliedBuiltin Builtin.bool [] => true
      | _ => false
    if !okBool then mkerr "InvalidPredicate"
    else do
      let ty1 ← y.getType
      let tty ← ty1.getType
      if tty.asConst ≠ some Const.type then mkerr "IfBranchMustBeTerm"
      else do
        let tz ← z.getType
        let ttz ← tz.getType
        if ttz.asConst ≠ some Const.type then mkerr "IfBranchMustBeTerm"
        else if !beqV n ty1 tz then mkerr "IfBranchMismatch"
        else Except.ok ty1) = mkerr "IfBranchMustBeTerm"
  simp only [hx, hy, hty, hz, httz, exOkBind, hb]
  simp [htyc, hconst]

theorem boolIfMismatch (n : Nat) (env : TyEnv) (x y z : TyExpr)
    (tx ty1 tty tz ttz : Value) (hx : x.getType = Except.ok tx)
    (hb : tx.kind = ValueKind.appliedBuiltin Builtin.bool [])
    (hy : y.getType = Except.ok ty1)
    (hty : ty1.getType = Except.ok tty)
    (htyc : tty.asConst = some Const.type)
    (hz : z.getType = Except.ok tz)
    (httz : tz.getType = Except.ok ttz)
    (htzc : ttz.asConst = some Const.type)
    (hbeq : beqV n ty1 tz = false) :
    typeOneLayer (n + 1) env (TyExprKind.boolIf x y z)
      = mkerr "IfBranchMismatch" := by
  show (do
    let tx ← x.getType
    let okBool := match tx.kind with
      | ValueKind.appliedBuiltin Builtin.bool [] => true
      | _ => false
    if !okBool then mkerr "InvalidPredicate"
    else do
      let ty1 ← y.getType
      let tty ← ty1.getType
      if tty.asConst ≠ some Const.type then mkerr "IfBranchMustBeTerm"
      else do
        let tz ← z.getType
        let ttz ← tz.getType
        if ttz.asConst ≠ some Const.type then mkerr "IfBranchMustBeTerm"
        else if !beqV n ty1 tz then mkerr "IfBranchMismatch"
        else Except.ok ty1) = mkerr "IfBranchMismatch"
  simp only [hx, hy, hty, hz, httz, exOkBind, hb]
  simp [htyc, htzc, hbeq]

theorem boolIfOk (n : Nat) (env : TyEnv) (x y z : TyExpr)
    (tx ty1 tty tz ttz : Value) (hx : x.getType = Except.ok tx)
    (hb : tx.kind = ValueKind.appliedBuiltin Builtin.bool [])
    (hy : y.getType = Except.ok ty1)
    (hty : ty1.getType = Except.ok tty)
    (htyc : tty.asConst = some Const.type)
    (hz : z.getType = Except.ok tz)
    (httz : tz.getType = Except.ok ttz)
    (htzc : ttz.asConst = some Const.type)
    (hbeq : beqV n ty1 tz = true) :
    typeOneLayer (n + 1) env (TyExprKind.boolIf x y z)
      = Except.ok ty1 := by
  show (do
    let tx ← x.getType
    let okBool := match tx.kind with
      | ValueKind.appliedBuiltin Builtin.bool [] => true
      | _ => false
    if !okBool then mkerr "InvalidPredicate"
    else do
      let ty1 ← y.getType
      let tty ← ty1.getType
      if tty.asConst ≠ some Const.type then mkerr "IfBranchMustBeTerm"
      else do
        let tz ← z.getType
        let ttz ← tz.getType
        if ttz.asConst ≠ some Const.type then mkerr "IfBranchMustBeTerm"
        else if !beqV n ty1 tz then mkerr "IfBranchMismatch"
        else Except.ok ty1) = Except.ok ty1
  simp only [hx, hy, hty, hz, httz, exOkBind, hb]
  simp [htyc, htzc, hbeq]

/-- C9: typechecking `BoolIf(c, y, z)` requires a `Bool` condition
(else `InvalidPredicate`), both branch types at universe `Type` (else
`IfBranchMustBeTerm`), equal branch types (else `IfBranchMismatch`),
and on success yields `type_of(y)`; in particular
`typecheck(BoolIf(BoolLit true, NaturalLit 1, BoolLit false))` fails
with `IfBranchMismatch`. -/
theorem boolIf_rule :
    (∀ (n : Nat) (env : TyEnv) (x y z : TyExpr) (tx : Value),
      x.getType = Except.ok tx →
      (match tx.kind with
        | ValueKind.appliedBuiltin Builtin.bool [] => true
        | _ => false) = false →
      typeOneLayer (n + 1) env (TyExprKind.boolIf x y z)
        = mkerr "InvalidPredicate") ∧
    (∀ (n : Nat) (env : TyEnv) (x y z : TyExpr) (tx ty1 tty : Value),
      x.getType = Except.ok tx →
      tx.kind = ValueKind.appliedBuiltin Builtin.bool [] →
      y.getType = Except.ok ty1 → ty1.getType = Except.ok tty →
      tty.asConst ≠ some Const.type →
      typeOneLayer (n + 1) env (TyExprKind.boolIf x y z)
        = mkerr "IfBranchMustBeTerm") ∧
    (∀ (n : Nat) (env : TyEnv) (x y z : TyExpr) (tx ty1 tty tz ttz : Value),
      x.getType = Except.ok tx →
      tx.kind = ValueKind.appliedBuiltin Builtin.bool [] →
      y.getType = Except.ok ty1 → ty1.getType = Except.ok tty →
      tty.asConst = some Const.type →
      z.getType = Except.ok tz → tz.getType = Except.ok ttz →
      ttz.asConst ≠ some Const.type →
      typeOneLayer (n + 1) env (TyExprKind.boolIf x y z)
        = mkerr "IfBranchMustBeTerm") ∧
    (∀ (n : Nat) (env : TyEnv) (x y z : TyExpr) (tx ty1 tty tz ttz : Value),
      x.getType = Except.ok tx →
      tx.kind = ValueKind.appliedBuiltin Builtin.bool [] →
      y.getType = Except.ok ty1 → ty1.getType = Except.ok tty →
      tty.asConst = some Const.type →
      z.getType = Except.ok tz → tz.getType = Except.ok ttz →
      ttz.asConst = some Const.type → beqV n ty1 tz = false →
      typeOneLayer (n + 1) env (TyExprKind.boolIf x y z)
        = mkerr "IfBranchMismatch") ∧
    (∀ (n : Nat) (env : TyEnv) (x y z : TyExpr) (tx ty1 tty tz ttz : Value),
      x.getType = Except.ok tx →
      tx.kind = ValueKind.appliedBuiltin Builtin.bool [] →
      y.getType = Except.ok ty1 → ty1.getType = Except.ok tty →
      tty.asConst = some Const.type →
      z.getType = Except.ok tz → tz.getType = Except.ok ttz →
      ttz.asConst = some Const.type → beqV n ty1 tz = true →
      typeOneLayer (n + 1) env (TyExprKind.boolIf x y z) = Except.ok ty1) ∧
    typecheck 30 (Expr.boolIf (Expr.boolLit true) (Expr.natLit 1)
        (Expr.boolLit false))
      = mkerr "IfBranchMismatch" := by
  refine ⟨?_, ?_, ?_, ?_, ?_, rfl⟩
  · intro n env x y z tx hx hnb
    exact boolIfPredicate n env x y z tx hx hnb
  · intro n env x y z tx ty1 tty hx hb hy hty hconst
    exact boolIfTermY n env x y z tx ty1 tty hx hb hy hty hconst
  · intro n env x y z tx ty1 tty tz ttz hx hb hy hty htyc hz httz hconst
    exact boolIfTermZ n env x y z tx ty1 tty tz ttz hx hb hy hty htyc hz
      httz hconst
  · intro n env x y z tx ty1 tty tz ttz hx hb hy hty htyc hz httz htzc hbeq
    exact boolIfMismatch n env x y z tx ty1 tty tz ttz hx hb hy hty htyc hz
      httz htzc hbeq
  · intro n env x y z tx ty1 tty tz ttz hx hb hy hty htyc hz httz htzc hbeq
    exact boolIfOk n env x y z tx ty1 tty tz ttz hx hb hy hty htyc hz httz
      htzc hbeq

/-- Witness for C9, applying the mismatch and success rules on concrete
typed subexpressions (`if true then 1 else false`, and
`if true then 1 else 1`). -/
theorem boolIf_rule_witness :
    typeOneLayer 30 TyEnv.empty (TyExprKind.boolIf
        (TyExpr.mk (TyExprKind.boolLit true) (some vBool))
        (TyExpr.mk (TyExprKind.natLit 1) (some vNatural))
        (TyExpr.mk (TyExprKind.boolLit false) (some vBool)))
      = mkerr "IfBranchMismatch" ∧
    typeOneLayer 30 TyEnv.empty (TyExprKind.boolIf
        (TyExpr.mk (TyExprKind.boolLit true) (some vBool))
        (TyExpr.mk (TyExprKind.natLit 1) (some vNatural))
        (TyExpr.mk (TyExprKind.natLit 2) (some vNatural)))
      = Except.ok vNatural :=
  ⟨boolIf_rule.2.2.2.1 29 TyEnv.empty
      (TyExpr.mk (TyExprKind.boolLit true) (some vBool))
      (TyExpr.mk (TyExprKind.natLit 1) (some vNatural))
      (TyExpr.mk (TyExprKind.boolLit false) (some vBool))
      vBool vNatural vType vBool vType
      rfl rfl rfl rfl rfl rfl rfl rfl rfl,
   boolIf_rule.2.2.2.2.1 29 TyEnv.empty
      (TyExpr.mk (TyExprKind.boolLit true) (some vBool))
      (TyExpr.mk (TyExprKind.natLit 1) (some vNatural))
      (TyExpr.mk (TyExprKind.natLit 2) (some vNatural))
      vBool vNatural vType vNatural vType
      rfl rfl rfl rfl rfl rfl rfl rfl rfl⟩

/-! ## Claim C2 -/

theorem exBindInv {α β : Type} {x : Except Err α} {f : α → Except Err β}
    {b : β} (h : (x >>= f) = Except.ok b) :
    ∃ a, x = Except.ok a ∧ f a = Except.ok b := by
  cases x with
  | ok a => exact ⟨a, rfl, h⟩
  | error e => exact absurd h (by simp [Bind.bind, Except.bind])

/-- C2, counterexample to "Const Sort is the only expression returned
without a type": `let x = 1 in Sort` is accepted, is not `Const Sort`,
and its TyExpr carries no recorded type (the source stores
`body.get_type().ok()`, which is `None` when the body is `Sort`). -/
theorem let_sort_counterexample :
    typecheck 30 (Expr.letE "x" none (Expr.natLit 1) (Expr.const Const.sort))
      = Except.ok (TyExpr.mk (TyExprKind.letE "x" none
          (TyExpr.mk (TyExprKind.natLit 1) (some vNatural))
          (TyExpr.mk (TyExprKind.const Const.sort) none)) none) ∧
    (match Expr.letE "x" none (Expr.natLit 1) (Expr.const Const.sort) with
      | Expr.const Const.sort => true
      | _ => false) = false :=
  ⟨rfl, rfl⟩

/-- C2 (amended): every TyExpr returned by the typechecker carries a
recorded type unless it is the constant `Sort`, or it is a `Let` whose
typed body itself carries no recorded type (the body is `Sort` under
nested lets): the `Let` case stores `body.get_type().ok()` and so
propagates typelessness. -/
theorem tyexpr_type_amended (n : Nat) (env : TyEnv) (e : Expr) (te : TyExpr)
    (h : typeWith n env e = Except.ok te) (hty : te.ty = none) :
    (e = Expr.const Const.sort
      ∧ te = TyExpr.mk (TyExprKind.const Const.sort) none) ∨
    (∃ x tan val body valTE bodyTE, e = Expr.letE x tan val body ∧
      te = TyExpr.mk (TyExprKind.letE x none valTE bodyTE) none ∧
      bodyTE.ty = none) := by
  match n with
  | 0 => exact absurd h (by simp [typeWith])
  | n + 1 =>
  cases e with
  | var v =>
    simp only [typeWith] at h
    split at h
    next a f hl =>
      split at h
      next ty hfty =>
        rw [← Except.ok.inj h] at hty
        exact absurd hty (by simp [TyExpr.ty])
      next => exact absurd h (by simp [mkerr])
    next => exact absurd h (by simp [mkerr])
  | lam x annot body =>
    simp only [typeWith] at h
    obtain ⟨a1, h1, h⟩ := exBindInv h
    obtain ⟨a2, h2, h⟩ := exBindInv h
    obtain ⟨a3, h3, h⟩ := exBindInv h
    obtain ⟨a4, h4, h⟩ := exBindInv h
    obtain ⟨a5, h5, h⟩ := exBindInv h
    obtain ⟨a6, h6, h⟩ := exBindInv h
    obtain ⟨a7, h7, h⟩ := exBindInv h
    obtain ⟨a8, h8, h⟩ := exBindInv h
    obtain ⟨a9, h9, h⟩ := exBindInv h
    rw [← Except.ok.inj h] at hty
    exact absurd hty (by simp [TyExpr.ty])
  | pi x annot body =>
    simp only [typeWith] at h
    obtain ⟨a1, h1, h⟩ := exBindInv h
    obtain ⟨a2, h2, h⟩ := exBindInv h
    obtain ⟨a3, h3, h⟩ := exBindInv h
    obtain ⟨a4, h4, h⟩ := exBindInv h
    obtain ⟨a5, h5, h⟩ := exBindInv h
    obtain ⟨a6, h6, h⟩ := exBindInv h
    rw [← Except.ok.inj h] at hty
    exact absurd hty (by simp [TyExpr.ty])
  | letE x tan val body =>
    simp only [typeWith] at h
    obtain ⟨valTE, h1, h⟩ := exBindInv h
    obtain ⟨valNf, h2, h⟩ := exBindInv h
    obtain ⟨bodyTE, h3, h⟩ := exBindInv h
    have hte := (Except.ok.inj h).symm
    have hbody : bodyTE.ty = none := by
      rw [hte] at hty
      simpa [TyExpr.ty] using hty
    right
    exact ⟨x, tan, val, body, valTE, bodyTE, rfl, by rw [hte, hbody], hbody⟩
  | app f arg =>
    simp only [typeWith] at h
    obtain ⟨a1, h1, h⟩ := exBindInv h
    obtain ⟨a2, h2, h⟩ := exBindInv h
    obtain ⟨a3, h3, h⟩ := exBindInv h
    rw [← Except.ok.inj h] at hty
    exact absurd hty (by simp [TyExpr.ty])
  | annot x t =>
    simp only [typeWith] at h
    obtain ⟨a1, h1, h⟩ := exBindInv h
    obtain ⟨a2, h2, h⟩ := exBindInv h
    obtain ⟨a3, h3, h⟩ := exBindInv h
    rw [← Except.ok.inj h] at hty
    exact absurd hty (by simp [TyExpr.ty])
  | const c =>
    cases c with
    | sort =>
      left
      simp only [typeWith] at h
      exact ⟨rfl, (Except.ok.inj h).symm⟩
    | type =>
      simp only [typeWith] at h
      obtain ⟨a1, h1, h⟩ := exBindInv h
      rw [← Except.ok.inj h] at hty
      exact absurd hty (by simp [TyExpr.ty])
    | kind =>
      simp only [typeWith] at h
      obtain ⟨a1, h1, h⟩ := exBindInv h
      rw [← Except.ok.inj h] at hty
      exact absurd hty (by simp [TyExpr.ty])
  | builtin b =>
    simp only [typeWith] at h
    obtain ⟨a1, h1, h⟩ := exBindInv h
    rw [← Except.ok.inj h] at hty
    exact absurd hty (by simp [TyExpr.ty])
  | boolLit b =>
    simp only [typeWith] at h
    obtain ⟨a1, h1, h⟩ := exBindInv h
    rw [← Except.ok.inj h] at hty
    exact absurd hty (by simp [TyExpr.ty])
  | natLit m =>
    simp only [typeWith] at h
    obtain ⟨a1, h1, h⟩ := exBindInv h
    rw [← Except.ok.inj h] at hty
    exact absurd hty (by simp [TyExpr.ty])
  | someLit x =>
    simp only [typeWith] at h
    obtain ⟨a1, h1, h⟩ := exBindInv h
    obtain ⟨a2, h2, h⟩ := exBindInv h
    rw [← Except.ok.inj h] at hty
    exact absurd hty (by simp [TyExpr.ty])
  | recordLit kvs =>
    simp only [typeWith] at h
    obtain ⟨a1, h1, h⟩ := exBindInv h
    obtain ⟨a2, h2, h⟩ := exBindInv h
    rw [← Except.ok.inj h] at hty
    exact absurd hty (by simp [TyExpr.ty])
  | recordType kts =>
    simp only [typeWith] at h
    obtain ⟨a1, h1, h⟩ := exBindInv h
    obtain ⟨a2, h2, h⟩ := exBindInv h
    rw [← Except.ok.inj h] at hty
    exact absurd hty (by simp [TyExpr.ty])
  | unionType kts =>
    simp only [typeWith] at h
    obtain ⟨a1, h1, h⟩ := exBindInv h
    obtain ⟨a2, h2, h⟩ := exBindInv h
    rw [← Except.ok.inj h] at hty
    exact absurd hty (by simp [TyExpr.ty])
  | projection r labels =>
    simp only [typeWith] at h
    obtain ⟨a1, h1, h⟩ := exBindInv h
    obtain ⟨a2, h2, h⟩ := exBindInv h
    rw [← Except.ok.inj h] at hty
    exact absurd hty (by simp [TyExpr.ty])
  | merge rec scrut tannot =>
    simp only [typeWith] at h
    obtain ⟨a1, h1, h⟩ := exBindInv h
    obtain ⟨a2, h2, h⟩ := exBindInv h
    cases tannot with
    | none =>
      obtain ⟨a3, h3, h⟩ := exBindInv h
      obtain ⟨a4, h4, h⟩ := exBindInv h
      rw [← Except.ok.inj h] at hty
      exact absurd hty (by simp [TyExpr.ty])
    | some t =>
      obtain ⟨a3, h3, h⟩ := exBindInv h
      obtain ⟨a4, h4, h⟩ := exBindInv h
      obtain ⟨a5, h5, h⟩ := exBindInv h
      rw [← Except.ok.inj h] at hty
      exact absurd hty (by simp [TyExpr.ty])
  | boolIf c t e =>
    simp only [typeWith] at h
    obtain ⟨a1, h1, h⟩ := exBindInv h
    obtain ⟨a2, h2, h⟩ := exBindInv h
    obtain ⟨a3, h3, h⟩ := exBindInv h
    obtain ⟨a4, h4, h⟩ := exBindInv h
    rw [← Except.ok.inj h] at hty
    exact absurd hty (by simp [TyExpr.ty])
  | combine x y =>
    simp only [typeWith] at h
    obtain ⟨a1, h1, h⟩ := exBindInv h
    obtain ⟨a2, h2, h⟩ := exBindInv h
    obtain ⟨a3, h3, h⟩ := exBindInv h
    rw [← Except.ok.inj h] at hty
    exact absurd hty (by simp [TyExpr.ty])

/-- Witness for C2 (amended) at `let x = 1 in Sort`: the accepted
TyExpr has no recorded type and the expression is indeed a `Let` whose
typed body has no recorded type. -/
theorem tyexpr_type_amended_witness :
    (Expr.letE "x" none (Expr.natLit 1) (Expr.const Const.sort)
        = Expr.const Const.sort
      ∧ TyExpr.mk (TyExprKind.letE "x" none
          (TyExpr.mk (TyExprKind.natLit 1) (some vNatural))
          (TyExpr.mk (TyExprKind.const Const.sort) none)) none
        = TyExpr.mk (TyExprKind.const Const.sort) none) ∨
    (∃ x tan val body valTE bodyTE,
      Expr.letE "x" none (Expr.natLit 1) (Expr.const Const.sort)
        = Expr.letE x tan val body ∧
      TyExpr.mk (TyExprKind.letE "x" none
          (TyExpr.mk (TyExprKind.natLit 1) (some vNatural))
          (TyExpr.mk (TyExprKind.const Const.sort) none)) none
        = TyExpr.mk (TyExprKind.letE x none valTE bodyTE) none ∧
      bodyTE.ty = none) :=
  tyexpr_type_amended 30 TyEnv.empty
    (Expr.letE "x" none (Expr.natLit 1) (Expr.const Const.sort))
    (TyExpr.mk (TyExprKind.letE "x" none
      (TyExpr.mk (TyExprKind.natLit 1) (some vNatural))
      (TyExpr.mk (TyExprKind.const Const.sort) none)) none)
    rfl rfl

/-! ## Claim C1 -/

theorem foldRecordtype : ∀ (tys : List TyExpr) (us : List Const) (k : Const),
    tys.map (fun t => t.ty.map Value.asConst) = us.map (fun c => some (some c)) →
    (tys.foldlM (fun k t => do
      let ty ← t.getType
      match ty.asConst with
      | some c => Except.ok (cmax k c)
      | none => mkerr "InvalidFieldType") k)
      = Except.ok (us.foldl cmax k) := by
  intro tys
  induction tys with
  | nil =>
    intro us k h
    cases us with
    | nil => rfl
    | cons c cs => simp at h
  | cons t ts ih =>
    intro us k h
    cases us with
    | nil => simp at h
    | cons c cs =>
      simp only [List.map_cons, List.cons.injEq] at h
      obtain ⟨h1, h2⟩ := h
      obtain ⟨tv, htv, hasc⟩ : ∃ tv, t.ty = some tv ∧ tv.asConst = some c := by
        cases hty : t.ty with
        | none => rw [hty] at h1; exact nomatch h1
        | some tv =>
          rw [hty] at h1
          simp only [Option.map_some', Option.some.injEq] at h1
          exact ⟨tv, rfl, h1⟩
      have hget : t.getType = Except.ok tv := by
        unfold TyExpr.getType
        rw [htv]
      rw [List.foldlM_cons, hget, exOkBind, hasc, exOkBind, List.foldl_cons]
      exact ih cs (cmax k c) h2

theorem typeOfRecordtype_max (tys : List TyExpr) (us : List Const)
    (h : tys.map (fun t => t.ty.map Value.asConst)
      = us.map (fun c => some (some c))) :
    typeOfRecordtype tys = Except.ok (vConst (us.foldl cmax Const.type)) := by
  unfold typeOfRecordtype
  rw [foldRecordtype tys us Const.type h, exOkBind]

theorem recordLit_universe (n : Nat) (env : TyEnv)
    (kvs : List (String × TyExpr)) (kts : List (String × Value))
    (quoted : List TyExpr) (u : Value)
    (h1 : kvs.foldlM (fun acc p => do
      match assocLookup acc p.1 with
      | some _ => mkerr "RecordTypeDuplicateField"
      | none => do
        let t ← p.2.getType
        pure (acc ++ [(p.1, t)])) ([] : List (String × Value)) = Except.ok kts)
    (h2 : kts.mapM (fun p => quote n env.size p.2) = Except.ok quoted)
    (h3 : typeOfRecordtype quoted = Except.ok u) :
    typeOneLayer (n + 1) env (TyExprKind.recordLit kvs)
      = Except.ok (Value.mk (ValueKind.recordType kts) (some u)) := by
  show (do
    let kts ← kvs.foldlM (fun acc p => do
      match assocLookup acc p.1 with
      | some _ => mkerr "RecordTypeDuplicateField"
      | none => do
        let t ← p.2.getType
        pure (acc ++ [(p.1, t)])) ([] : List (String × Value))
    let quoted ← kts.mapM (fun p => quote n env.size p.2)
    let ty ← typeOfRecordtype quoted
    Except.ok (Value.mk (ValueKind.recordType kts) (some ty)))
      = Except.ok (Value.mk (ValueKind.recordType kts) (some u))
  rw [h1, exOkBind, h2, exOkBind, h3, exOkBind]

theorem recordType_universe (n : Nat) (env : TyEnv)
    (kts : List (String × TyExpr)) (seen : List (String × Unit)) (u : Value)
    (h1 : kts.foldlM (fun acc p =>
      match assocLookup acc p.1 with
      | some _ => mkerr "RecordTypeDuplicateField"
      | none => pure (acc ++ [(p.1, ())])) ([] : List (String × Unit))
        = Except.ok seen)
    (h2 : typeOfRecordtype (kts.map (fun p => p.2)) = Except.ok u) :
    typeOneLayer (n + 1) env (TyExprKind.recordType kts) = Except.ok u := by
  show (do
    let _ ← kts.foldlM (fun acc p =>
      match assocLookup acc p.1 with
      | some _ => mkerr "RecordTypeDuplicateField"
      | none => pure (acc ++ [(p.1, ())])) ([] : List (String × Unit))
    typeOfRecordtype (kts.map (fun p => p.2))) = Except.ok u
  rw [h1, exOkBind, h2]

theorem combine_universe (n : Nat) (env : TyEnv) (x y : TyExpr)
    (xTy yTy : Value) (ktsX ktsY : List (String × Value))
    (quoted : List TyExpr) (u : Value)
    (hx : x.getType = Except.ok xTy)
    (hkx : xTy.kind = ValueKind.recordType ktsX)
    (hy : y.getType = Except.ok yTy)
    (hky : yTy.kind = ValueKind.recordType ktsY)
    (h2 : (ktsX.filter (fun p => (assocLookup ktsY p.1).isNone)
        ++ ktsY).mapM (fun p => quote n env.size p.2) = Except.ok quoted)
    (h3 : typeOfRecordtype quoted = Except.ok u) :
    typeOneLayer (n + 1) env (TyExprKind.combine x y)
      = Except.ok (Value.mk (ValueKind.recordType
          (ktsX.filter (fun p => (assocLookup ktsY p.1).isNone) ++ ktsY))
          (some u)) := by
  show (do
    let xTy ← x.getType
    let yTy ← y.getType
    let ktsX ← match xTy.kind with
      | ValueKind.recordType kts => pure kts
      | _ => mkerr "MustCombineRecord"
    let ktsY ← match yTy.kind with
      | ValueKind.recordType kts => pure kts
      | _ => mkerr "MustCombineRecord"
    let kts := ktsX.filter (fun p => (assocLookup ktsY p.1).isNone) ++ ktsY
    let quoted ← kts.mapM (fun p => quote n env.size p.2)
    let ty ← typeOfRecordtype quoted
    Except.ok (Value.mk (ValueKind.recordType kts) (some ty)))
      = Except.ok (Value.mk (ValueKind.recordType
          (ktsX.filter (fun p => (assocLookup ktsY p.1).isNone) ++ ktsY))
          (some u))
  simp only [hx, hy, exOkBind, hkx, hky, pure_bind]
  simp only [exOkBind, pure_bind, h2, h3]

theorem projection_universe (n : Nat) (env : TyEnv) (r : TyExpr)
    (labels : List String) (rTy srcU : Value)
    (kts newKts : List (String × Value))
    (hr : r.getType = Except.ok rTy)
    (hk : rTy.kind = ValueKind.recordType kts)
    (h2 : labels.foldlM (fun acc l => do
      match assocLookup kts l with
      | none => mkerr "ProjectionMissingEntry"
      | some t =>
        match assocLookup acc l with
        | some _ => mkerr "ProjectionDuplicateField"
        | none => pure (acc ++ [(l, t)])) ([] : List (String × Value))
        = Except.ok newKts)
    (h3 : rTy.getType = Except.ok srcU) :
    typeOneLayer (n + 1) env (TyExprKind.projection r labels)
      = Except.ok (Value.mk (ValueKind.recordType newKts) (some srcU)) := by
  show (do
    let rTy ← r.getType
    let kts ← match rTy.kind with
      | ValueKind.recordType kts => pure kts
      | _ => mkerr "ProjectionMustBeRecord"
    let newKts ← labels.foldlM (fun acc l => do
      match assocLookup kts l with
      | none => mkerr "ProjectionMissingEntry"
      | some t =>
        match assocLookup acc l with
        | some _ => mkerr "ProjectionDuplicateField"
        | none => pure (acc ++ [(l, t)])) ([] : List (String × Value))
    let srcTy ← rTy.getType
    Except.ok (Value.mk (ValueKind.recordType newKts) (some srcTy)))
      = Except.ok (Value.mk (ValueKind.recordType newKts) (some srcU))
  simp only [hr, exOkBind, hk, pure_bind]
  simp only [exOkBind, pure_bind, h2, h3]

/-- C1, counterexample to "the universe of every record type the
typechecker constructs equals the max over the universes of its field
types": projecting the `Type`-universe field `a` out of a record of type
`{ a : Natural, b : Type }` (which lives at `Kind`) produces the record
type `{ a : Natural }` still carrying universe `Kind`, while the max
over its own field universes is `Type`. -/
theorem projection_universe_counterexample :
    typeOneLayer 30 TyEnv.empty (TyExprKind.projection
        (TyExpr.mk (TyExprKind.var 0) (some (Value.mk (ValueKind.recordType
          [("a", vNatural), ("b", vType)]) (some vKind)))) ["a"])
      = Except.ok (Value.mk (ValueKind.recordType [("a", vNatural)])
          (some vKind)) ∧
    typeOfRecordtype [TyExpr.mk (TyExprKind.builtin Builtin.natural)
        (some vType)] = Except.ok vType ∧
    vKind.asConst ≠ vType.asConst :=
  ⟨rfl, rfl, by decide⟩

/-- C1 (amended): `type_of_recordtype` computes the `max` of the field
universes starting from `Type` (so the empty record type lives at
`Type`), and the record types built by `RecordLit`, `RecordType` and
`RightBiasedRecordMerge` carry exactly that universe over their fields;
a `Projection`, however, reuses the source record type's universe
(`record_type.get_type()`), which can strictly exceed the max over the
universes of the fields it keeps. -/
theorem record_universe_rule :
    (∀ (tys : List TyExpr) (us : List Const),
      tys.map (fun t => t.ty.map Value.asConst)
        = us.map (fun c => some (some c)) →
      typeOfRecordtype tys
        = Except.ok (vConst (us.foldl cmax Const.type))) ∧
    (∀ (n : Nat) (env : TyEnv) (kvs : List (String × TyExpr))
      (kts : List (String × Value)) (quoted : List TyExpr) (u : Value),
      kvs.foldlM (fun acc p => do
        match assocLookup acc p.1 with
        | some _ => mkerr "RecordTypeDuplicateField"
        | none => do
          let t ← p.2.getType
          pure (acc ++ [(p.1, t)])) ([] : List (String × Value))
          = Except.ok kts →
      kts.mapM (fun p => quote n env.size p.2) = Except.ok quoted →
      typeOfRecordtype quoted = Except.ok u →
      typeOneLayer (n + 1) env (TyExprKind.recordLit kvs)
        = Except.ok (Value.mk (ValueKind.recordType kts) (some u))) ∧
    (∀ (n : Nat) (env : TyEnv) (kts : List (String × TyExpr))
      (seen : List (String × Unit)) (u : Value),
      kts.foldlM (fun acc p =>
        match assocLookup acc p.1 with
        | some _ => mkerr "RecordTypeDuplicateField"
        | none => pure (acc ++ [(p.1, ())])) ([] : List (String × Unit))
          = Except.ok seen →
      typeOfRecordtype (kts.map (fun p => p.2)) = Except.ok u →
      typeOneLayer (n + 1) env (TyExprKind.recordType kts) = Except.ok u) ∧
    (∀ (n : Nat) (env : TyEnv) (x y : TyExpr) (xTy yTy : Value)
      (ktsX ktsY : List (String × Value)) (quoted : List TyExpr) (u : Value),
      x.getType = Except.ok xTy →
      xTy.kind = ValueKind.recordType ktsX →
      y.getType = Except.ok yTy →
      yTy.kind = ValueKind.recordType ktsY →
      (ktsX.filter (fun p => (assocLookup ktsY p.1).isNone)
        ++ ktsY).mapM (fun p => quote n env.size p.2) = Except.ok quoted →
      typeOfRecordtype quoted = Except.ok u →
      typeOneLayer (n + 1) env (TyExprKind.combine x y)
        = Except.ok (Value.mk (ValueKind.recordType
            (ktsX.filter (fun p => (assocLookup ktsY p.1).isNone) ++ ktsY))
            (some u))) ∧
    (∀ (n : Nat) (env : TyEnv) (r : TyExpr) (labels : List String)
      (rTy srcU : Value) (kts newKts : List (String × Value)),
      r.getType = Except.ok rTy →
      rTy.kind = ValueKind.recordType kts →
      labels.foldlM (fun acc l => do
        match assocLookup kts l with
        | none => mkerr "ProjectionMissingEntry"
        | some t =>
          match assocLookup acc l with
          | some _ => mkerr "ProjectionDuplicateField"
          | none => pure (acc ++ [(l, t)])) ([] : List (String × Value))
          = Except.ok newKts →
      rTy.getType = Except.ok srcU →
      typeOneLayer (n + 1) env (TyExprKind.projection r labels)
        = Except.ok (Value.mk (ValueKind.recordType newKts) (some srcU))) := by
  refine ⟨typeOfRecordtype_max, ?_, ?_, ?_, ?_⟩
  · intro n env kvs kts quoted u h1 h2 h3
    exact recordLit_universe n env kvs kts quoted u h1 h2 h3
  · intro n env kts seen u h1 h2
    exact recordType_universe n env kts seen u h1 h2
  · intro n env x y xTy yTy ktsX ktsY quoted u hx hkx hy hky h2 h3
    exact combine_universe n env x y xTy yTy ktsX ktsY quoted u hx hkx hy
      hky h2 h3
  · intro n env r labels rTy srcU kts newKts hr hk h2 h3
    exact projection_universe n env r labels rTy srcU kts newKts hr hk h2 h3

/-- Witness for C1 (amended): the fold-max rule at the one-field list
`[Natural]` and the projection rule at the counterexample's record. -/
theorem record_universe_rule_witness :
    typeOfRecordtype [TyExpr.mk (TyExprKind.builtin Builtin.natural)
        (some vType)]
      = Except.ok (vConst ([Const.type].foldl cmax Const.type)) ∧
    typeOneLayer 30 TyEnv.empty (TyExprKind.projection
        (TyExpr.mk (TyExprKind.var 0) (some (Value.mk (ValueKind.recordType
          [("a", vNatural), ("b", vType)]) (some vKind)))) ["a"])
      = Except.ok (Value.mk (ValueKind.recordType [("a", vNatural)])
          (some vKind)) :=
  ⟨record_universe_rule.1 [TyExpr.mk (TyExprKind.builtin Builtin.natural)
      (some vType)] [Const.type] rfl,
   record_universe_rule.2.2.2.2 29 TyEnv.empty
      (TyExpr.mk (TyExprKind.var 0) (some (Value.mk (ValueKind.recordType
        [("a", vNatural), ("b", vType)]) (some vKind)))) ["a"]
      (Value.mk (ValueKind.recordType [("a", vNatural), ("b", vType)])
        (some vKind)) vKind
      [("a", vNatural), ("b", vType)] [("a", vNatural)]
      rfl rfl rfl rfl⟩

/-! ## Claim C5 -/

theorem exErrBind {α β : Type} (e : Err) (f : α → Except Err β) :
    ((Except.error e : Except Err α) >>= f) = Except.error e := rfl

theorem foldlMsplit {β : Type} (step : β → (String × Value) → Except Err β) :
    ∀ (pre : List (String × Value)) (acc acc' : β),
    pre.foldlM step acc = Except.ok acc' →
    ∀ (x : String × Value) (rest : List (String × Value)),
    (pre ++ x :: rest).foldlM step acc
      = (step acc' x >>= fun b => rest.foldlM step b) := by
  intro pre
  induction pre with
  | nil =>
    intro acc acc' h x rest
    have hacc : acc = acc' := Except.ok.inj h
    subst hacc
    rw [List.nil_append, List.foldlM_cons]
  | cons p pre ih =>
    intro acc acc' h x rest
    rw [List.foldlM_cons] at h
    obtain ⟨b0, hb0, h⟩ := exBindInv h
    rw [List.cons_append, List.foldlM_cons, hb0, exOkBind]
    exact ih b0 acc' h x rest

theorem mapMerror {β : Type} (f : (String × Option Value) → Except Err β) :
    ∀ (pre : List (String × Option Value)) (l : List β),
    pre.mapM f = Except.ok l →
    ∀ (x : String × Option Value) (e : Err)
      (rest : List (String × Option Value)),
    f x = Except.error e →
    (pre ++ x :: rest).mapM f = Except.error e := by
  intro pre
  induction pre with
  | nil =>
    intro l h x e rest hx
    rw [List.nil_append, List.mapM_cons, hx, exErrBind]
  | cons p pre ih =>
    intro l h x e rest hx
    rw [List.mapM_cons] at h
    obtain ⟨y, hy, h⟩ := exBindInv h
    obtain ⟨ys, hys, h⟩ := exBindInv h
    rw [List.cons_append, List.mapM_cons, hy, exOkBind]
    rw [ih ys hys x e rest hx, exErrBind]

theorem merge_optional_as_union (n : Nat) (env : TyEnv)
    (rec scrut scrut2 : TyExpr) (tannot : Option TyExpr)
    (recTy uTy uTy2 X : Value) (handlers : List (String × Value))
    (h1 : rec.getType = Except.ok recTy)
    (h2 : recTy.kind = ValueKind.recordType handlers)
    (h3 : scrut.getType = Except.ok uTy)
    (h4 : uTy.kind = ValueKind.appliedBuiltin Builtin.optional [X])
    (h5 : scrut2.getType = Except.ok uTy2)
    (h6 : uTy2.kind = ValueKind.unionType
      [("None", (none : Option Value)), ("Some", some X)]) :
    typeOneLayer (n + 1) env (TyExprKind.merge rec scrut tannot)
      = typeOneLayer (n + 1) env (TyExprKind.merge rec scrut2 tannot) := by
  simp only [typeOneLayer]
  simp only [h1, h3, h5, exOkBind, h2, h4, h6, pure_bind]

theorem merge_handlers_error (n : Nat) (env : TyEnv) (rec scrut : TyExpr)
    (tannot : Option TyExpr) (recTy uTy : Value)
    (handlers : List (String × Value))
    (variants : List (String × Option Value)) (E : Err)
    (h1 : rec.getType = Except.ok recTy)
    (h2 : recTy.kind = ValueKind.recordType handlers)
    (h3 : scrut.getType = Except.ok uTy)
    (h4 : uTy.kind = ValueKind.unionType variants)
    (h5 : handlers.foldlM (mergeHandlerStep n variants) (none : Option Value)
      = Except.error E) :
    typeOneLayer (n + 1) env (TyExprKind.merge rec scrut tannot)
      = Except.error E := by
  simp only [typeOneLayer]
  simp only [h1, h3, exOkBind, h2, h4, pure_bind]
  rw [h5, exErrBind]

theorem merge_fold_missing_variant (n : Nat)
    (variants : List (String × Option Value))
    (pre rest : List (String × Value)) (acc acc' : Option Value)
    (x : String) (hty : Value)
    (h : pre.foldlM (mergeHandlerStep n variants) acc = Except.ok acc')
    (hlook : assocLookup variants x = none) :
    (pre ++ (x, hty) :: rest).foldlM (mergeHandlerStep n variants) acc
      = mkerr "MergeHandlerMissingVariant" := by
  rw [foldlMsplit _ pre acc acc' h (x, hty) rest]
  have hstep : mergeHandlerStep n variants acc' (x, hty)
      = mkerr "MergeHandlerMissingVariant" := by
    unfold mergeHandlerStep
    simp only [hlook, mkerr, exErrBind]
  rw [hstep]
  simp only [mkerr, exErrBind]

theorem merge_variants_missing_handler (handlers : List (String × Value))
    (pre rest : List (String × Option Value)) (l : List Unit)
    (x : String) (vt : Option Value)
    (h : pre.mapM (mergeVariantCheck handlers) = Except.ok l)
    (hlook : assocLookup handlers x = none) :
    (pre ++ (x, vt) :: rest).mapM (mergeVariantCheck handlers)
      = mkerr "MergeVariantMissingHandler" := by
  refine mapMerror _ pre l h (x, vt) _ rest ?_
  unfold mergeVariantCheck
  simp only [hlook, Option.isNone_none, if_true, mkerr]

theorem merge_variants_error (n : Nat) (env : TyEnv) (rec scrut : TyExpr)
    (tannot : Option TyExpr) (recTy uTy : Value)
    (handlers : List (String × Value))
    (variants : List (String × Option Value)) (inferredOpt : Option Value)
    (E : Err)
    (h1 : rec.getType = Except.ok recTy)
    (h2 : recTy.kind = ValueKind.recordType handlers)
    (h3 : scrut.getType = Except.ok uTy)
    (h4 : uTy.kind = ValueKind.unionType variants)
    (h5 : handlers.foldlM (mergeHandlerStep n variants) (none : Option Value)
      = Except.ok inferredOpt)
    (h6 : variants.mapM (mergeVariantCheck handlers) = Except.error E) :
    typeOneLayer (n + 1) env (TyExprKind.merge rec scrut tannot)
      = Except.error E := by
  simp only [typeOneLayer]
  simp only [h1, h3, exOkBind, h2, h4, pure_bind]
  rw [h5, exOkBind, h6, exErrBind]

theorem merge_outcome (n : Nat) (env : TyEnv) (rec scrut : TyExpr)
    (recTy uTy : Value) (handlers : List (String × Value))
    (variants : List (String × Option Value)) (inferredOpt : Option Value)
    (l : List Unit)
    (h1 : rec.getType = Except.ok recTy)
    (h2 : recTy.kind = ValueKind.recordType handlers)
    (h3 : scrut.getType = Except.ok uTy)
    (h4 : uTy.kind = ValueKind.unionType variants)
    (h5 : handlers.foldlM (mergeHandlerStep n variants) (none : Option Value)
      = Except.ok inferredOpt)
    (h6 : variants.mapM (mergeVariantCheck handlers) = Except.ok l) :
    (inferredOpt = none →
      typeOneLayer (n + 1) env (TyExprKind.merge rec scrut none)
        = mkerr "MergeEmptyNeedsAnnotation") ∧
    (∀ t, inferredOpt = some t →
      typeOneLayer (n + 1) env (TyExprKind.merge rec scrut none)
        = Except.ok t) ∧
    (∀ (tE : TyExpr) (t2 : Value), eval n env.asNzEnv tE = Except.ok t2 →
      (inferredOpt = none →
        typeOneLayer (n + 1) env (TyExprKind.merge rec scrut (some tE))
          = Except.ok t2) ∧
      (∀ t1, inferredOpt = some t1 →
        typeOneLayer (n + 1) env (TyExprKind.merge rec scrut (some tE))
          = (if !beqV n t1 t2 then mkerr "MergeAnnotMismatch"
            else Except.ok t1))) := by
  refine ⟨?_, ?_, ?_⟩
  · intro hnone
    subst hnone
    simp only [typeOneLayer]
    simp only [h1, h3, exOkBind, h2, h4, pure_bind]
    rw [h5, exOkBind, h6, exOkBind]
  · intro t hsome
    subst hsome
    simp only [typeOneLayer]
    simp only [h1, h3, exOkBind, h2, h4, pure_bind]
    rw [h5, exOkBind, h6, exOkBind]
  · intro tE t2 heval
    constructor
    · intro hnone
      subst hnone
      simp only [typeOneLayer]
      simp only [h1, h3, exOkBind, h2, h4, pure_bind]
      rw [h5, exOkBind, h6, exOkBind]
      simp only [heval, exOkBind, pure_bind]
    · intro t1 hsome
      subst hsome
      simp only [typeOneLayer]
      simp only [h1, h3, exOkBind, h2, h4, pure_bind]
      rw [h5, exOkBind, h6, exOkBind]
      simp only [heval, exOkBind, pure_bind]

/-- C5, concrete scenario and general rules of the Merge case: an
`Optional X` scrutinee is treated exactly as the union
`< None | Some : X >`; a handler whose key has no variant fails the
handler loop with `MergeHandlerMissingVariant` and that failure is the
Merge result; a variant with no handler fails the coverage check with
`MergeVariantMissingHandler`, likewise surfaced; with no handlers and no
annotation (and no variants to complain about first) the result is
`MergeEmptyNeedsAnnotation`; otherwise the result is the common handler
return type, cross-checked against the annotation
(`MergeAnnotMismatch` on disagreement). -/
theorem merge_rule :
    (∀ (n : Nat) (env : TyEnv) (rec scrut scrut2 : TyExpr)
      (tannot : Option TyExpr) (recTy uTy uTy2 X : Value)
      (handlers : List (String × Value)),
      rec.getType = Except.ok recTy →
      recTy.kind = ValueKind.recordType handlers →
      scrut.getType = Except.ok uTy →
      uTy.kind = ValueKind.appliedBuiltin Builtin.optional [X] →
      scrut2.getType = Except.ok uTy2 →
      uTy2.kind = ValueKind.unionType
        [("None", (none : Option Value)), ("Some", some X)] →
      typeOneLayer (n + 1) env (TyExprKind.merge rec scrut tannot)
        = typeOneLayer (n + 1) env (TyExprKind.merge rec scrut2 tannot)) ∧
    (∀ (n : Nat) (variants : List (String × Option Value))
      (pre rest : List (String × Value)) (acc acc' : Option Value)
      (x : String) (hty : Value),
      pre.foldlM (mergeHandlerStep n variants) acc = Except.ok acc' →
      assocLookup variants x = none →
      (pre ++ (x, hty) :: rest).foldlM (mergeHandlerStep n variants) acc
        = mkerr "MergeHandlerMissingVariant") ∧
    (∀ (n : Nat) (env : TyEnv) (rec scrut : TyExpr)
      (tannot : Option TyExpr) (recTy uTy : Value)
      (handlers : List (String × Value))
      (variants : List (String × Option Value)) (E : Err),
      rec.getType = Except.ok recTy →
      recTy.kind = ValueKind.recordType handlers →
      scrut.getType = Except.ok uTy →
      uTy.kind = ValueKind.unionType variants →
      handlers.foldlM (mergeHandlerStep n variants) (none : Option Value)
        = Except.error E →
      typeOneLayer (n + 1) env (TyExprKind.merge rec scrut tannot)
        = Except.error E) ∧
    (∀ (handlers : List (String × Value))
      (pre rest : List (String × Option Value)) (l : List Unit)
      (x : String) (vt : Option Value),
      pre.mapM (mergeVariantCheck handlers) = Except.ok l →
      assocLookup handlers x = none →
      (pre ++ (x, vt) :: rest).mapM (mergeVariantCheck handlers)
        = mkerr "MergeVariantMissingHandler") ∧
    (∀ (n : Nat) (env : TyEnv) (rec scrut : TyExpr)
      (tannot : Option TyExpr) (recTy uTy : Value)
      (handlers : List (String × Value))
      (variants : List (String × Option Value)) (inferredOpt : Option Value)
      (E : Err),
      rec.getType = Except.ok recTy →
      recTy.kind = ValueKind.recordType handlers →
      scrut.getType = Except.ok uTy →
      uTy.kind = ValueKind.unionType variants →
      handlers.foldlM (mergeHandlerStep n variants) (none : Option Value)
        = Except.ok inferredOpt →
      variants.mapM (mergeVariantCheck handlers) = Except.error E →
      typeOneLayer (n + 1) env (TyExprKind.merge rec scrut tannot)
        = Except.error E) ∧
    (∀ (n : Nat) (env : TyEnv) (rec scrut : TyExpr) (recTy uTy : Value)
      (handlers : List (String × Value))
      (variants : List (String × Option Value)) (inferredOpt : Option Value)
      (l : List Unit),
      rec.getType = Except.ok recTy →
      recTy.kind = ValueKind.recordType handlers →
      scrut.getType = Except.ok uTy →
      uTy.kind = ValueKind.unionType variants →
      handlers.foldlM (mergeHandlerStep n variants) (none : Option Value)
        = Except.ok inferredOpt →
      variants.mapM (mergeVariantCheck handlers) = Except.ok l →
      (inferredOpt = none →
        typeOneLayer (n + 1) env (TyExprKind.merge rec scrut none)
          = mkerr "MergeEmptyNeedsAnnotation") ∧
      (∀ t, inferredOpt = some t →
        typeOneLayer (n + 1) env (TyExprKind.merge rec scrut none)
          = Except.ok t) ∧
      (∀ (tE : TyExpr) (t2 : Value), eval n env.asNzEnv tE = Except.ok t2 →
        (inferredOpt = none →
          typeOneLayer (n + 1) env (TyExprKind.merge rec scrut (some tE))
            = Except.ok t2) ∧
        (∀ t1, inferredOpt = some t1 →
          typeOneLayer (n + 1) env (TyExprKind.merge rec scrut (some tE))
            = (if !beqV n t1 t2 then mkerr "MergeAnnotMismatch"
              else Except.ok t1)))) ∧
    (typecheck 30 (Expr.merge
        (Expr.recordLit [("None", Expr.natLit 0),
          ("Some", Expr.lam "x" (Expr.builtin Builtin.natural)
            (Expr.var ⟨"x", 0⟩))])
        (Expr.someLit (Expr.natLit 7)) none)).map TyExpr.ty
      = Except.ok (some vNatural) := by
  refine ⟨?_, ?_, ?_, ?_, ?_, ?_, rfl⟩
  · intro n env rec scrut scrut2 tannot recTy uTy uTy2 X handlers
      h1 h2 h3 h4 h5 h6
    exact merge_optional_as_union n env rec scrut scrut2 tannot recTy uTy
      uTy2 X handlers h1 h2 h3 h4 h5 h6
  · intro n variants pre rest acc acc2 x hty h hlook
    exact merge_fold_missing_variant n variants pre rest acc acc2 x hty
      h hlook
  · intro n env rec scrut tannot recTy uTy handlers variants E h1 h2 h3 h4 h5
    exact merge_handlers_error n env rec scrut tannot recTy uTy handlers
      variants E h1 h2 h3 h4 h5
  · intro handlers pre rest l x vt h hlook
    exact merge_variants_missing_handler handlers pre rest l x vt h hlook
  · intro n env rec scrut tannot recTy uTy handlers variants inferredOpt E
      h1 h2 h3 h4 h5 h6
    exact merge_variants_error n env rec scrut tannot recTy uTy handlers
      variants inferredOpt E h1 h2 h3 h4 h5 h6
  · intro n env rec scrut recTy uTy handlers variants inferredOpt l
      h1 h2 h3 h4 h5 h6
    exact merge_outcome n env rec scrut recTy uTy handlers variants
      inferredOpt l h1 h2 h3 h4 h5 h6

/-- Witness for C5: merging an empty handler record over an empty union
with no annotation yields `MergeEmptyNeedsAnnotation`, and a missing
`"B"` handler fails the coverage check. -/
theorem merge_rule_witness :
    typeOneLayer 30 TyEnv.empty (TyExprKind.merge
        (TyExpr.mk (TyExprKind.recordLit [])
          (some (Value.mk (ValueKind.recordType []) (some vType))))
        (TyExpr.mk (TyExprKind.var 0)
          (some (Value.mk (ValueKind.unionType []) (some vType))))
        none)
      = mkerr "MergeEmptyNeedsAnnotation" ∧
    ([] ++ ("B", (none : Option Value))
        :: ([] : List (String × Option Value))).mapM
        (mergeVariantCheck [])
      = mkerr "MergeVariantMissingHandler" :=
  ⟨(merge_rule.2.2.2.2.2.1 29 TyEnv.empty
      (TyExpr.mk (TyExprKind.recordLit [])
        (some (Value.mk (ValueKind.recordType []) (some vType))))
      (TyExpr.mk (TyExprKind.var 0)
        (some (Value.mk (ValueKind.unionType []) (some vType))))
      (Value.mk (ValueKind.recordType []) (some vType))
      (Value.mk (ValueKind.unionType []) (some vType))
      [] [] none [] rfl rfl rfl rfl rfl rfl).1 rfl,
   merge_rule.2.2.2.1 [] [] [] [] "B" none rfl rfl⟩


end Dhall
